import Mathlib

/-!
Verification of the TP-Link TL-SG105E info collector
(`tplswitch_infocollector.py`).

The Python source scrapes two HTML management pages with `re.search`,
repairs the embedded pseudo-JSON, and populates a `SwitchTPL` record.
This file gives a shallow embedding of that pipeline over `List Char`
texts and proves the specification claims about it.

Conventions of the embedding:
* texts are `List Char`;
* Python exceptions become `Except` errors: a failed `re.search` followed
  by `.group(1)` (an `AttributeError`) is `ParseError.patternNotFound`,
  a `ValueError` from `int(...)` is `ParseError.malformedLiteral`, an
  `IndexError` from list indexing is `ParseError.indexOutOfRange`, a
  `KeyError` from dict access is `DAOError.missingKey`;
* Python's negative-index list access is modelled faithfully by `pyGet`;
* the fixed regular expressions of the source are implemented directly:
  `re.search` scans for the leftmost start position where the whole
  pattern matches, and the lazy group `([\s\S]*?)` takes the shortest
  text ending at the closing literal.
-/

deriving instance DecidableEq for Except

namespace TplSwitch

/-- Error kinds raised by the parsing layer of the Python source. -/
inductive ParseError where
  | patternNotFound
  | malformedLiteral
  | indexOutOfRange
deriving DecidableEq, Repr

/-- Match a literal pattern at the start of a text; on success return the
remaining text after the pattern. -/
def matchLit : List Char → List Char → Option (List Char)
  | [], s => some s
  | _ :: _, [] => none
  | p :: ps, c :: cs => if p = c then matchLit ps cs else none

/-- `re.search` semantics for a matcher `m` that tries to match at one
position: scan positions left to right and return the first success. -/
def searchWith {α : Type} (m : List Char → Option α) : List Char → Option α
  | [] => m []
  | c :: s =>
    match m (c :: s) with
    | some v => some v
    | none => searchWith m s

/-- Lazy capture `([\s\S]*?)` followed by the literal `close`: return the
shortest prefix of the text after which `close` matches. -/
def upTo (close : List Char) : List Char → Option (List Char)
  | [] =>
    match matchLit close [] with
    | some _ => some []
    | none => none
  | c :: s =>
    match matchLit close (c :: s) with
    | some _ => some []
    | none => (upTo close s).map (c :: ·)

/-- One-position matcher for a regex of the shape `pre([\s\S]*?)close`,
returning the captured group. -/
def matchArray (pat close : List Char) (s : List Char) : Option (List Char) :=
  match matchLit pat s with
  | some r => upTo close r
  | none => none

/-- The literal part of the regex `var max_port_num = (\d);` (line 105). -/
def maxPortLit : List Char := "var max_port_num = ".toList

/-- The literal part of `state:\[([\s\S]*?)\],` (line 106). -/
def stateLit : List Char := "state:[".toList

/-- The literal part of `link_status:\[([\s\S]*?)\],` (line 107). -/
def linkLit : List Char := "link_status:[".toList

/-- The literal part of `pkts:\[([\s\S]*?)\]` (line 108). -/
def pktsLit : List Char := "pkts:[".toList

/-- Closing literal `\],` of the `state` and `link_status` regexes. -/
def closeBracketComma : List Char := [']', ',']

/-- Closing literal `\]` of the `pkts` regex. -/
def closeBracket : List Char := [']']

/-- One-position matcher for `var max_port_num = (\d);`: a single decimal
digit followed by a semicolon.  The digit's value is returned, matching
`int(....group(1))` on line 105 of the source. -/
def matchMaxPort (s : List Char) : Option Nat :=
  match matchLit maxPortLit s with
  | some (d :: c :: _) => if d.isDigit && (c == ';') then some (d.toNat - 48) else none
  | _ => none

/-- Python `str.split(sep)` for a one-character separator: no collapsing,
so an empty text yields one empty token. -/
def splitOn (sep : Char) : List Char → List (List Char)
  | [] => [[]]
  | c :: s =>
    if c = sep then [] :: splitOn sep s
    else
      match splitOn sep s with
      | t :: ts => (c :: t) :: ts
      | [] => [[c]]

/-- Python whitespace characters stripped by `int(...)`. -/
def isPySpace (c : Char) : Bool :=
  c == ' ' || c == '\t' || c == '\n' || c == '\r' || c == '\x0b' || c == '\x0c'

/-- Strip leading and trailing whitespace, as `int(...)` does. -/
def pyStrip (s : List Char) : List Char :=
  ((s.dropWhile isPySpace).reverse.dropWhile isPySpace).reverse

/-- Accumulate decimal digits; fails on any non-digit character. -/
def parseDigitsFrom (acc : Nat) : List Char → Option Nat
  | [] => some acc
  | c :: s => if c.isDigit then parseDigitsFrom (10 * acc + (c.toNat - 48)) s else none

/-- A non-empty all-digit run parsed as a natural number. -/
def parseDigits : List Char → Option Nat
  | [] => none
  | c :: s => parseDigitsFrom 0 (c :: s)

/-- Python `int(token)` on the tokens the source feeds it: optional
surrounding whitespace, an optional sign, then a non-empty digit run.
(`int` of an empty or non-numeric token raises `ValueError`.) -/
def pyInt (s : List Char) : Option Int :=
  let t := pyStrip s
  if t = [] then none
  else if t.headD ' ' = '-' then (parseDigits t.tail).map (fun n => -(n : Int))
  else if t.headD ' ' = '+' then (parseDigits t.tail).map (fun n => (n : Int))
  else (parseDigits t).map (fun n => (n : Int))

/-- `list(map(int, group.split(',')))`: a `ValueError` anywhere surfaces
as `malformedLiteral`. -/
def parseIntList (s : List Char) : Except ParseError (List Int) :=
  match (splitOn ',' s).mapM pyInt with
  | some xs => .ok xs
  | none => .error .malformedLiteral

/-- Lift a failed `re.search` (whose `.group` then raises) to a parse
error. -/
def optErr {α : Type} (e : ParseError) : Option α → Except ParseError α
  | some a => .ok a
  | none => .error e

/-- Python list indexing, including negative indices: `xs[i]` is
`xs[len xs + i]` for `i < 0`, and raises `IndexError` when the adjusted
index is out of `[0, len xs)`. -/
def pyGet {α : Type} (xs : List α) (i : Int) : Except ParseError α :=
  if h : 0 ≤ i ∧ i < (xs.length : Int) then
    .ok (xs.get ⟨i.toNat, by omega⟩)
  else if h2 : i < 0 ∧ 0 ≤ i + (xs.length : Int) then
    .ok (xs.get ⟨(i + xs.length).toNat, by omega⟩)
  else
    .error .indexOutOfRange

/-- `state_info` lookup table (line 110 of the source). -/
def state_info : List String := ["Disabled", "Enabled"]

/-- `link_info` lookup table (line 111 of the source). -/
def link_info : List String :=
  ["Link Down", "Auto", "10Half", "10Full", "100Half", "100Full", "1000Full", ""]

/-- The per-port dictionary built in the loop body (lines 117-124). -/
structure PortRecord where
  status : String
  linkStatus : String
  txgoodpkt : Int
  txbadpkt : Int
  rxgoodpkt : Int
  rxbadpkt : Int
deriving DecidableEq, Repr

/-- One iteration of the loop at lines 115-124, for `index`. Evaluation
order matches the Python dict literal: `state` lookup, then `link`,
then the four `pkts` entries. -/
def buildPort (state linkStatus pkts : List Int) (index : Nat) : Except ParseError PortRecord := do
  let sv ← pyGet state index
  let sLabel ← pyGet state_info sv
  let lv ← pyGet linkStatus index
  let lLabel ← pyGet link_info lv
  let a ← pyGet pkts (4 * index)
  let b ← pyGet pkts (4 * index + 1)
  let c ← pyGet pkts (4 * index + 2)
  let d ← pyGet pkts (4 * index + 3)
  return ⟨sLabel, lLabel, a, b, c, d⟩

/-- The whole loop `for index in range(n)`, building the `ports_info`
dict in insertion order `1, 2, ..., n`. -/
def buildPortsLoop (state linkStatus pkts : List Int) : Nat → Except ParseError (List (Nat × PortRecord))
  | 0 => .ok []
  | n + 1 => do
    let rest ← buildPortsLoop state linkStatus pkts n
    let r ← buildPort state linkStatus pkts n
    return rest ++ [(n + 1, r)]

/-- `SwitchTPLParser.parse_ports_info` (lines 104-126): the four regex
extractions in source order, the integer decoding of the three arrays,
then the port loop.  The result models the `ports_info` dict as an
association list in insertion order. -/
def parse_ports_info (text : List Char) : Except ParseError (List (Nat × PortRecord)) := do
  let maxPortNum ← optErr .patternNotFound (searchWith matchMaxPort text)
  let stateRaw ← optErr .patternNotFound (searchWith (matchArray stateLit closeBracketComma) text)
  let state ← parseIntList stateRaw
  let linkRaw ← optErr .patternNotFound (searchWith (matchArray linkLit closeBracketComma) text)
  let linkStatus ← parseIntList linkRaw
  let pktsRaw ← optErr .patternNotFound (searchWith (matchArray pktsLit closeBracket) text)
  let pkts ← parseIntList pktsRaw
  buildPortsLoop state linkStatus pkts maxPortNum

/-- The port record the loop produces at `index = i` when every access
is in range, written with total `getD` accesses. -/
def expectedPort (s l k : List Int) (i : Nat) : PortRecord :=
  { status := state_info.getD (s.getD i 0).toNat "",
    linkStatus := link_info.getD (l.getD i 0).toNat "",
    txgoodpkt := k.getD (4 * i) 0, txbadpkt := k.getD (4 * i + 1) 0,
    rxgoodpkt := k.getD (4 * i + 2) 0, rxbadpkt := k.getD (4 * i + 3) 0 }

/-- The full in-range output of the port loop: ports `1..n` in order. -/
def expectedPorts (s l k : List Int) (n : Nat) : List (Nat × PortRecord) :=
  (List.range n).map (fun i => (i + 1, expectedPort s l k i))

/-- The decimal digit character for `n % 10`. -/
def digitChar (n : Nat) : Char :=
  if n = 0 then '0' else if n = 1 then '1' else if n = 2 then '2'
  else if n = 3 then '3' else if n = 4 then '4' else if n = 5 then '5'
  else if n = 6 then '6' else if n = 7 then '7' else if n = 8 then '8' else '9'

/-- Fuel-driven digit accumulator: prepend the digits of `n` to `acc`.
The fuel always exceeds `n`, so it never runs out. -/
def natDigitsCore : Nat → Nat → List Char → List Char
  | 0, _, acc => acc
  | f + 1, n, acc =>
    if n < 10 then digitChar n :: acc
    else natDigitsCore f (n / 10) (digitChar (n % 10) :: acc)

/-- Decimal rendering of a natural number, most significant digit first. -/
def natDigits (n : Nat) : List Char :=
  natDigitsCore (n + 1) n []

/-- Decimal rendering of an integer (minus sign for negatives). -/
def intDigits (i : Int) : List Char :=
  if i < 0 then '-' :: natDigits i.natAbs else natDigits i.natAbs

/-- Comma-separated rendering of an integer list, as it appears between
the brackets on the device's ports page. -/
def renderCsv : List Int → List Char
  | [] => []
  | [x] => intDigits x
  | x :: y :: t => intDigits x ++ ',' :: renderCsv (y :: t)

/-- Abstract content of a ports page: the port count and the three
arrays embedded in the page's script text. -/
structure PortsPage where
  maxPortNum : Nat
  state : List Int
  linkStatus : List Int
  pkts : List Int

/-- A ports-page text carrying exactly the four script-variable
assignments the source matches on, in the device's layout:
`var max_port_num = N;` then `state:[...],` then `link_status:[...],`
then `pkts:[...]`, one per line. -/
def renderPortsPage (p : PortsPage) : List Char :=
  maxPortLit ++ (natDigits p.maxPortNum ++ (';' :: '\x0a' ::
  (stateLit ++ (renderCsv p.state ++ (']' :: ',' :: '\x0a' ::
  (linkLit ++ (renderCsv p.linkStatus ++ (']' :: ',' :: '\x0a' ::
  (pktsLit ++ (renderCsv p.pkts ++ (']' :: '\x0a' :: [])))))))))))

/-! ### System-info page parsing (`parse_system_info`, lines 99-102) -/

/-- The literal part of the regex `var info_ds = (\{[\s\S]*?\});$`. -/
def infoLit : List Char := "var info_ds = ".toList

/-- `$` in MULTILINE mode: end of text or just before a newline. -/
def eolOk (t : List Char) : Bool :=
  t.isEmpty || t.head? == some '\x0a'

/-- Lazy capture for `(\{[\s\S]*?\});$` after the opening brace: the
shortest prefix ending at a closing brace that is immediately followed
by a semicolon at end of line.  The closing brace belongs to the
captured group, the semicolon does not. -/
def upToBraceSemi : List Char → Option (List Char)
  | [] => none
  | c :: rest =>
    if c == '\x7d' && rest.head? == some ';' && eolOk rest.tail then some ['\x7d']
    else (upToBraceSemi rest).map (c :: ·)

/-- One-position matcher for `var info_ds = (\{[\s\S]*?\});$`. -/
def matchInfoDs (s : List Char) : Option (List Char) :=
  match matchLit infoLit s with
  | some r2 =>
    if r2.headD ' ' = '\x7b' then (upToBraceSemi r2.tail).map ('\x7b' :: ·) else none
  | none => none

/-- A `\w` character of the key-quoting regex `^(\w+):`. -/
def isWordChar (c : Char) : Bool := c.isAlphanum || c == '_'

/-- `re.sub(r'^(\w+):', r'"\1":', line)` restricted to one line: if the
line starts with a word run followed by a colon, quote the word run. -/
def quoteLine (l : List Char) : List Char :=
  let w := l.takeWhile isWordChar
  let r := l.dropWhile isWordChar
  if w.isEmpty then l
  else
    match r with
    | c :: rest => if c = ':' then '"' :: (w ++ '"' :: ':' :: rest) else l
    | [] => l

/-- Join texts with a separator character (inverse of `splitOn`). -/
def joinOn (sep : Char) : List (List Char) → List Char
  | [] => []
  | [l] => l
  | l :: ls => l ++ sep :: joinOn sep ls

/-- `re.sub(r'^(\w+):', r'"\1":', body, flags=re.MULTILINE)` (line 101):
`^` matches at the start of the text and after every newline, so the
substitution acts once per line. -/
def quoteKeys (s : List Char) : List Char :=
  joinOn '\x0a' ((splitOn '\x0a' s).map quoteLine)

/-- JSON whitespace skipped by the decoder. -/
def skipWs (s : List Char) : List Char :=
  s.dropWhile (fun c => c == ' ' || c == '\x0a' || c == '\t' || c == '\r')

/-- A JSON string literal of the fragment produced by the device pages:
a double-quoted run without escape sequences.  Returns the content and
the remaining text.  (This models `json.loads` string decoding on the
escape-free literals the source actually feeds it.) -/
def parseJsonString (s : List Char) : Option (List Char × List Char) :=
  if s.headD ' ' = '"' then
    let rest := s.tail
    let r := rest.dropWhile (fun c => !(c == '"'))
    if r = [] then none
    else some (rest.takeWhile (fun c => !(c == '"')), r.tail)
  else none

/-- Members of a JSON object with string values: `"k" : "v"` pairs
separated by commas, ending at a closing brace.  Fuel-indexed; the
callers supply fuel exceeding the text length, which always suffices
since every member consumes at least one character. -/
def parseMembersAux : Nat → List Char → Option (List (String × String) × List Char)
  | 0, _ => none
  | f + 1, s =>
    (parseJsonString (skipWs s)).bind fun kv =>
      let s₁ := skipWs kv.2
      if s₁.headD ' ' = ':' then
        (parseJsonString (skipWs s₁.tail)).bind fun vv =>
          let s₃ := skipWs vv.2
          if s₃.headD ' ' = ',' then
            (parseMembersAux f s₃.tail).map
              (fun p => ((String.mk kv.1, String.mk vv.1) :: p.1, p.2))
          else if s₃.headD ' ' = '\x7d' then
            some ([(String.mk kv.1, String.mk vv.1)], s₃.tail)
          else none
      else none

/-- `json.loads` on the normalized object literal: a brace-delimited
object of string keys and string values, with nothing but whitespace
after it. -/
def jsonParseObj (s : List Char) : Option (List (String × String)) :=
  let t := skipWs s
  if t.headD ' ' = '\x7b' then
    let r := t.tail
    if (skipWs r).headD ' ' = '\x7d' then
      (if (skipWs (skipWs r).tail).isEmpty then some [] else none)
    else
      (parseMembersAux (r.length + 1) r).bind fun pr =>
        if (skipWs pr.2).isEmpty then some pr.1 else none
  else none

/-- A key line after the quoting normalization. -/
def quotedLine (k v t : List Char) : List Char :=
  '"' :: (k ++ ('"' :: ':' :: ('"' :: (v ++ ('"' :: t)))))


/-- `SwitchTPLParser.parse_system_info` (lines 99-102): locate the
`var info_ds = {...};` literal, quote its bare keys, decode the result
as a key-value mapping (association list in source order, which is what
the `json.loads` dict iterates as for distinct keys). -/
def parse_system_info (text : List Char) : Except ParseError (List (String × String)) :=
  match searchWith matchInfoDs text with
  | none => .error .patternNotFound
  | some body =>
    match jsonParseObj (quoteKeys body) with
    | some kvs => .ok kvs
    | none => .error .malformedLiteral

/-- Abstract content of a system-info page: the seven string values. -/
structure SysInfoPage where
  descri : List Char
  mac : List Char
  ip : List Char
  netmask : List Char
  gateway : List Char
  firmware : List Char
  hardware : List Char

/-- A well-formed embedded string value: printable characters only, no
double quote, no backslash (the embedded literals carry no escapes),
and no closing brace (which would end the object literal early). -/
def goodVal (v : List Char) : Prop :=
  ∀ c ∈ v, 32 ≤ c.toNat ∧ c ≠ '"' ∧ c ≠ '\\' ∧ c ≠ '\x7d'

instance (v : List Char) : Decidable (goodVal v) := by
  unfold goodVal; infer_instance

/-- One `key:"value"` line of the object literal; `t` is the trailing
text of the line (a comma on all but the last line). -/
def keyLine (k v t : List Char) : List Char :=
  k ++ (':' :: '"' :: (v ++ ('"' :: t)))

/-- The seven key lines of the object body, separated by newlines. -/
def sysInner (p : SysInfoPage) : List Char :=
  keyLine "descriStr".toList p.descri [','] ++ ('\x0a' ::
  (keyLine "macStr".toList p.mac [','] ++ ('\x0a' ::
  (keyLine "ipStr".toList p.ip [','] ++ ('\x0a' ::
  (keyLine "netmaskStr".toList p.netmask [','] ++ ('\x0a' ::
  (keyLine "gatewayStr".toList p.gateway [','] ++ ('\x0a' ::
  (keyLine "firmwareStr".toList p.firmware [','] ++ ('\x0a' ::
  keyLine "hardwareStr".toList p.hardware [])))))))))))

/-- A system-info page in the device's layout: a `var info_ds = {...};`
assignment with the seven bare-identifier keys, one per line, the last
line without a trailing comma. -/
def renderSysInfoPage (p : SysInfoPage) : List Char :=
  infoLit ++ ('\x7b' :: '\x0a' ::
  (sysInner p ++ ('\x0a' :: '\x7d' :: ';' :: '\x0a' :: [])))

/-- The whole object body after the quoting normalization: the seven
quoted key lines, newline-separated, then the closing brace line. -/
def quotedBody (p : SysInfoPage) : List Char :=
  quotedLine "descriStr".toList p.descri [','] ++ ('\x0a' ::
  (quotedLine "macStr".toList p.mac [','] ++ ('\x0a' ::
  (quotedLine "ipStr".toList p.ip [','] ++ ('\x0a' ::
  (quotedLine "netmaskStr".toList p.netmask [','] ++ ('\x0a' ::
  (quotedLine "gatewayStr".toList p.gateway [','] ++ ('\x0a' ::
  (quotedLine "firmwareStr".toList p.firmware [','] ++ ('\x0a' ::
  (quotedLine "hardwareStr".toList p.hardware [] ++
    ('\x0a' :: '\x7d' :: [])))))))))))))

/-! ### Data model and DAO layer (`SwitchTPL`, `SwitchPort`, `SwitchTPLDAO`) -/

/-- `SwitchPort` in its loader-populated form (lines 67-86): `state` and
`link_status` hold the looked-up labels, the counters stay integers. -/
structure SwitchPort where
  port_num : Nat
  state : String
  link_status : String
  txgoodpkt : Int
  txbadpkt : Int
  rxgoodpkt : Int
  rxbadpkt : Int
deriving DecidableEq, Repr

/-- `SwitchTPL` (lines 42-52): fields start as `None` (here `none`) and
are filled by the two loaders.  `port_number` is initialized to `0` and
never written nor serialized by the source. -/
structure SwitchTPL where
  description : Option String
  mac_address : Option String
  ip_address : Option String
  subnet_mask : Option String
  gateway : Option String
  firmware : Option String
  hardware : Option String
  port_number : Nat
  ports : List SwitchPort
deriving DecidableEq, Repr

/-- Network-level failure of a request (connection error and the like). -/
inductive TransportError where
  | failure
deriving DecidableEq, Repr

/-- Errors surfacing from the DAO loaders. -/
inductive DAOError where
  | transport (e : TransportError)
  | parse (e : ParseError)
  | missingKey (k : String)
deriving DecidableEq, Repr

/-- Whether a DAO error is a `KeyError` on the parsed mapping. -/
def isMissingKey : DAOError → Bool
  | .missingKey _ => true
  | _ => false

/-- Whether an `Except` result is a success. -/
def exceptOk {ε α : Type} : Except ε α → Bool
  | .ok _ => true
  | .error _ => false

/-- Python dict access `m[k]` on the decoded mapping: raises `KeyError`
when absent; with duplicate keys in the source literal the later value
wins (dict construction order). -/
def dictGet (m : List (String × String)) (k : String) : Except DAOError String :=
  match m.reverse.lookup k with
  | some v => .ok v
  | none => .error (.missingKey k)

/-- `SwitchTPLDAO.sys_info_loader` (lines 155-165).  The HTTP fetch is
modelled by its outcome `fetched`; the seven assignments run in source
order, each mutating the owned `SwitchTPL`, so a `KeyError` in the
middle leaves the earlier assignments in place.  Returns the outcome
paired with the final state of the owned record. -/
def sys_info_loader (sw : SwitchTPL) (fetched : Except TransportError (List Char)) :
    Except DAOError Unit × SwitchTPL :=
  match fetched with
  | .error e => (.error (.transport e), sw)
  | .ok text =>
    match parse_system_info text with
    | .error e => (.error (.parse e), sw)
    | .ok m =>
      match dictGet m "descriStr" with
      | .error e => (.error e, sw)
      | .ok v1 =>
        let sw1 := { sw with description := some v1 }
        match dictGet m "macStr" with
        | .error e => (.error e, sw1)
        | .ok v2 =>
          let sw2 := { sw1 with mac_address := some v2 }
          match dictGet m "ipStr" with
          | .error e => (.error e, sw2)
          | .ok v3 =>
            let sw3 := { sw2 with ip_address := some v3 }
            match dictGet m "netmaskStr" with
            | .error e => (.error e, sw3)
            | .ok v4 =>
              let sw4 := { sw3 with subnet_mask := some v4 }
              match dictGet m "gatewayStr" with
              | .error e => (.error e, sw4)
              | .ok v5 =>
                let sw5 := { sw4 with gateway := some v5 }
                match dictGet m "firmwareStr" with
                | .error e => (.error e, sw5)
                | .ok v6 =>
                  let sw6 := { sw5 with firmware := some v6 }
                  match dictGet m "hardwareStr" with
                  | .error e => (.error e, sw6)
                  | .ok v7 => (.ok (), { sw6 with hardware := some v7 })

/-- Build one `SwitchPort` from a `ports_info` entry (lines 173-183);
the six per-port dict keys always exist, so these accesses are total. -/
def mkSwitchPort (e : Nat × PortRecord) : SwitchPort :=
  { port_num := e.1, state := e.2.status, link_status := e.2.linkStatus,
    txgoodpkt := e.2.txgoodpkt, txbadpkt := e.2.txbadpkt,
    rxgoodpkt := e.2.rxgoodpkt, rxbadpkt := e.2.rxbadpkt }

/-- `SwitchTPLDAO.ports_info_loader` (lines 167-183): fetch, parse, and
only then clear and refill `switch.ports` from the parsed dict in
insertion order. -/
def ports_info_loader (sw : SwitchTPL) (fetched : Except TransportError (List Char)) :
    Except DAOError Unit × SwitchTPL :=
  match fetched with
  | .error e => (.error (.transport e), sw)
  | .ok text =>
    match parse_ports_info text with
    | .error e => (.error (.parse e), sw)
    | .ok infos => (.ok (), { sw with ports := infos.map mkSwitchPort })

/-- Authentication failure: the non-200 HTTP status of the login POST. -/
inductive AuthError where
  | httpStatus (code : Nat)
deriving DecidableEq, Repr

/-- `SwitchTPLDAO.logon` (lines 140-153), modelled on the response to the
POST to `logon.cgi`: status 200 yields the session (here `()`), any
other status raises; the response body is never inspected. -/
def logon (status_code : Nat) (_body : List Char) : Except AuthError Unit :=
  if status_code = 200 then .ok () else .error (.httpStatus status_code)

/-! ### Serialization (`to_dict`, lines 54-64 and 77-86) -/

/-- The generic key-value tree produced by `to_dict` and encoded by
`json.dumps`: strings, integers, `None`, arrays, objects. -/
inductive JVal where
  | jstr (s : String)
  | jint (n : Int)
  | jnull
  | jarr (xs : List JVal)
  | jobj (fields : List (String × JVal))

/-- A possibly-unset string field serializes to a string or `null`. -/
def optToJ : Option String → JVal
  | some s => .jstr s
  | none => .jnull

/-- `SwitchPort.to_dict` (lines 77-86). -/
def SwitchPort.to_dict (p : SwitchPort) : JVal :=
  .jobj [("port_num", .jint p.port_num), ("state", .jstr p.state),
         ("link_status", .jstr p.link_status), ("txgoodpkt", .jint p.txgoodpkt),
         ("txbadpkt", .jint p.txbadpkt), ("rxgoodpkt", .jint p.rxgoodpkt),
         ("rxbadpkt", .jint p.rxbadpkt)]

/-- `SwitchTPL.to_dict` (lines 54-64). -/
def SwitchTPL.to_dict (sw : SwitchTPL) : JVal :=
  .jobj [("description", optToJ sw.description), ("mac_address", optToJ sw.mac_address),
         ("ip_address", optToJ sw.ip_address), ("subnet_mask", optToJ sw.subnet_mask),
         ("gateway", optToJ sw.gateway), ("firmware", optToJ sw.firmware),
         ("hardware", optToJ sw.hardware),
         ("ports", .jarr (sw.ports.map SwitchPort.to_dict))]

/-- Field lookup in a serialized object. -/
def jGet (fs : List (String × JVal)) (k : String) : Option JVal :=
  fs.lookup k

/-- Read back a string leaf; anything else (in particular an integer) is
rejected. -/
def jAsStr : JVal → Option String
  | .jstr s => some s
  | _ => none

/-- Read back an integer leaf; a stringified number is rejected, so a
successful read certifies the counters were not coerced to strings. -/
def jAsInt : JVal → Option Int
  | .jint n => some n
  | _ => none

/-- Re-read one port object from the output tree. -/
def readPort : JVal → Option SwitchPort
  | .jobj fs => do
    let pn ← (jGet fs "port_num").bind jAsInt
    let st ← (jGet fs "state").bind jAsStr
    let ls ← (jGet fs "link_status").bind jAsStr
    let a ← (jGet fs "txgoodpkt").bind jAsInt
    let b ← (jGet fs "txbadpkt").bind jAsInt
    let c ← (jGet fs "rxgoodpkt").bind jAsInt
    let d ← (jGet fs "rxbadpkt").bind jAsInt
    return { port_num := pn.toNat, state := st, link_status := ls,
             txgoodpkt := a, txbadpkt := b, rxgoodpkt := c, rxbadpkt := d }
  | _ => none

/-- Re-read a whole device from the output tree; `port_number` is not
part of the tree and comes back as its initial `0`. -/
def readDevice : JVal → Option SwitchTPL
  | .jobj fs => do
    let d ← (jGet fs "description").bind jAsStr
    let m ← (jGet fs "mac_address").bind jAsStr
    let i ← (jGet fs "ip_address").bind jAsStr
    let n ← (jGet fs "subnet_mask").bind jAsStr
    let g ← (jGet fs "gateway").bind jAsStr
    let f ← (jGet fs "firmware").bind jAsStr
    let h ← (jGet fs "hardware").bind jAsStr
    let pj ← jGet fs "ports"
    match pj with
    | .jarr xs => do
      let ps ← xs.mapM readPort
      return { description := some d, mac_address := some m, ip_address := some i,
               subnet_mask := some n, gateway := some g, firmware := some f,
               hardware := some h, port_number := 0, ports := ps }
    | _ => none
  | _ => none

/-! ### Helper predicates used by the proofs -/

/-- Whether the literal pattern is sure to fail against this text
because of a character mismatch inside the text. -/
def litMismatch : List Char → List Char → Bool
  | [], _ => false
  | _ :: _, [] => false
  | p :: ps, c :: cs => !(p == c) || litMismatch ps cs

/-- Whether the literal pattern mismatches at every start position
inside `lit` (so a search can skip the whole segment, whatever follows
it). -/
def noLitMatch (pat : List Char) : List Char → Bool
  | [] => true
  | c :: tl => litMismatch pat (c :: tl) && noLitMatch pat tl

/-! ### Concrete fixtures used by counterexamples and witnesses -/

/-- The end-to-end fixture of the spec: two ports. -/
def fixturePage : PortsPage := ⟨2, [1, 0], [5, 0], [10, 0, 20, 1, 0, 0, 0, 0]⟩

/-- A ports page whose port count has two digits. -/
def tenPortPage : PortsPage :=
  ⟨10, List.replicate 10 1, List.replicate 10 0, List.replicate 40 0⟩

/-- A ports page with the state value `-1` for port 1. -/
def negStatePage : PortsPage := ⟨1, [-1], [0], [0, 0, 0, 0]⟩

/-- A ports page with the out-of-range state value `2` for port 1. -/
def bigStatePage : PortsPage := ⟨1, [2], [0], [0, 0, 0, 0]⟩

/-- A ports page with an empty `pkts` array. -/
def emptyPktsPage : PortsPage := ⟨1, [0], [0], []⟩

/-- A ports page whose `pkts` array is one entry short. -/
def shortPktsPage : PortsPage := ⟨2, [0, 0], [0, 0], [1, 2, 3, 4, 5, 6, 7]⟩

/-- The system-info fixture of the spec. -/
def fixtureSysPage : SysInfoPage :=
  ⟨"SW1".toList, "00:11:22:33:44:55".toList, "10.0.0.2".toList,
   "255.255.255.0".toList, "10.0.0.1".toList, "1.0.0".toList, "1.0".toList⟩

/-- A system-info text carrying only `descriStr` (missing the other six
required keys), as the device never prevents. -/
def oneKeySysText : List Char :=
  "var info_ds = ".toList ++ ('\x7b' :: ("\ndescriStr:\"NEW\"\n".toList ++
  ('\x7d' :: ';' :: '\x0a' :: [])))

/-- A fully populated device used by concrete checks. -/
def populatedSwitch : SwitchTPL :=
  { description := some "old-name", mac_address := some "00:00:00:00:00:01",
    ip_address := some "10.0.0.9", subnet_mask := some "255.255.255.0",
    gateway := some "10.0.0.1", firmware := some "1.0.0", hardware := some "1.0",
    port_number := 0,
    ports := [{ port_num := 1, state := "Enabled", link_status := "100Full",
                txgoodpkt := 7, txbadpkt := 0, rxgoodpkt := 9, rxbadpkt := 1 }] }

/-! ### Lemmas about literal matching and leftmost search -/

theorem matchLit_self (pat rest : List Char) : matchLit pat (pat ++ rest) = some rest := by
  induction pat with
  | nil => rfl
  | cons p ps ih => simp [matchLit, ih]

theorem matchLit_ne_head (p : Char) (ps : List Char) (c : Char) (cs : List Char) (h : p ≠ c) :
    matchLit (p :: ps) (c :: cs) = none := by
  simp [matchLit, h]

theorem litMismatch_matchLit (pat : List Char) : ∀ (l rest : List Char),
    litMismatch pat l = true → matchLit pat (l ++ rest) = none := by
  induction pat with
  | nil => intro l rest h; simp [litMismatch] at h
  | cons p ps ih =>
    intro l rest h
    cases l with
    | nil => simp [litMismatch] at h
    | cons c cs =>
      rw [litMismatch, Bool.or_eq_true, Bool.not_eq_true', beq_eq_false_iff_ne] at h
      rcases h with h | h
      · exact matchLit_ne_head p ps c (cs ++ rest) h
      · by_cases hpc : p = c
        · subst hpc
          simpa [matchLit] using ih cs rest h
        · exact matchLit_ne_head p ps c (cs ++ rest) hpc

theorem searchWith_hit {α : Type} (m : List Char → Option α) (s : List Char) (v : α)
    (h : m s = some v) : searchWith m s = some v := by
  cases s with
  | nil => simpa [searchWith] using h
  | cons c cs => simp [searchWith, h]

theorem searchWith_cons_none {α : Type} (m : List Char → Option α) (c : Char) (s : List Char)
    (h : m (c :: s) = none) : searchWith m (c :: s) = searchWith m s := by
  simp [searchWith, h]

theorem searchWith_skip_lit {α : Type} (m : List Char → Option α) (pat : List Char) :
    ∀ (lit rest : List Char), (∀ s, matchLit pat s = none → m s = none) →
    noLitMatch pat lit = true →
    searchWith m (lit ++ rest) = searchWith m rest := by
  intro lit
  induction lit with
  | nil => intro rest _ _; rfl
  | cons c tl ih =>
    intro rest hm h
    rw [noLitMatch, Bool.and_eq_true] at h
    have hnone : m ((c :: tl) ++ rest) = none := hm _ (litMismatch_matchLit pat _ rest h.1)
    rw [List.cons_append] at hnone ⊢
    rw [searchWith_cons_none m c (tl ++ rest) hnone]
    exact ih rest hm h.2

theorem searchWith_skip_seg {α : Type} (m : List Char → Option α) (p : Char) (ps : List Char) :
    ∀ (seg rest : List Char), (∀ s, matchLit (p :: ps) s = none → m s = none) →
    (∀ c ∈ seg, p ≠ c) →
    searchWith m (seg ++ rest) = searchWith m rest := by
  intro seg
  induction seg with
  | nil => intro rest _ _; rfl
  | cons c tl ih =>
    intro rest hm h
    have hc : p ≠ c := h c (by simp)
    have hnone : m (c :: (tl ++ rest)) = none := hm _ (matchLit_ne_head p ps c (tl ++ rest) hc)
    rw [List.cons_append, searchWith_cons_none m c (tl ++ rest) hnone]
    exact ih rest hm fun x hx => h x (by simp [hx])

theorem searchWith_nil_none {α : Type} (m : List Char → Option α) (h : m [] = none) :
    searchWith m [] = none := h

theorem upTo_spec2 (d c2 : Char) : ∀ (a r : List Char), (∀ x ∈ a, d ≠ x) →
    upTo [d, c2] (a ++ (d :: c2 :: r)) = some a := by
  intro a
  induction a with
  | nil =>
    intro r _
    have : matchLit [d, c2] (d :: c2 :: r) = some r := matchLit_self [d, c2] r
    simp [upTo, this]
  | cons c tl ih =>
    intro r h
    have hc : d ≠ c := h c (by simp)
    have hnone : matchLit [d, c2] (c :: (tl ++ (d :: c2 :: r))) = none :=
      matchLit_ne_head d [c2] c _ hc
    rw [List.cons_append, upTo, hnone]
    rw [ih r fun x hx => h x (by simp [hx])]
    rfl

theorem upTo_spec1 (d : Char) : ∀ (a r : List Char), (∀ x ∈ a, d ≠ x) →
    upTo [d] (a ++ (d :: r)) = some a := by
  intro a
  induction a with
  | nil =>
    intro r _
    have : matchLit [d] (d :: r) = some r := matchLit_self [d] r
    simp [upTo, this]
  | cons c tl ih =>
    intro r h
    have hc : d ≠ c := h c (by simp)
    have hnone : matchLit [d] (c :: (tl ++ (d :: r))) = none :=
      matchLit_ne_head d [] c _ hc
    rw [List.cons_append, upTo, hnone]
    rw [ih r fun x hx => h x (by simp [hx])]
    rfl

/-! ### Lemmas about decimal rendering and `int` parsing -/

theorem digitChar_spec (n : Nat) (h : n < 10) :
    (digitChar n).isDigit = true ∧ (digitChar n).toNat - 48 = n := by
  interval_cases n <;> exact ⟨by decide, by decide⟩

theorem natDigitsCore_eq : ∀ (f : Nat), ∀ (n : Nat) (acc : List Char), n < f →
    natDigitsCore f n acc = natDigits n ++ acc := by
  intro f
  induction f using Nat.strong_induction_on with
  | _ f ih =>
    intro n acc hn
    match f, hn with
    | f2 + 1, hn =>
      by_cases h : n < 10
      · rw [natDigitsCore, if_pos h, natDigits, natDigitsCore, if_pos h]
        rfl
      · rw [natDigitsCore, if_neg h]
        rw [ih f2 (by omega) (n / 10) _ (by omega)]
        conv_rhs => rw [natDigits, natDigitsCore, if_neg h]
        rw [ih n (by omega) (n / 10) _ (by omega)]
        rw [List.append_assoc]
        rfl

theorem natDigits_lt (n : Nat) (h : n < 10) : natDigits n = [digitChar n] := by
  rw [natDigits, natDigitsCore, if_pos h]

theorem natDigits_ge (n : Nat) (h : 10 ≤ n) :
    natDigits n = natDigits (n / 10) ++ [digitChar (n % 10)] := by
  rw [natDigits, natDigitsCore, if_neg (Nat.not_lt.mpr h)]
  rw [natDigitsCore_eq n (n / 10) _ (by omega)]

theorem natDigits_ne_nil (n : Nat) : natDigits n ≠ [] := by
  by_cases h : n < 10
  · simp [natDigits_lt n h]
  · simp [natDigits_ge n (Nat.not_lt.mp h)]

theorem natDigits_all_digit (n : Nat) : ∀ c ∈ natDigits n, c.isDigit = true := by
  induction n using Nat.strong_induction_on with
  | _ n ih =>
    by_cases h : n < 10
    · rw [natDigits_lt n h]
      intro c hc
      rw [List.mem_singleton] at hc
      subst hc
      exact (digitChar_spec n h).1
    · rw [natDigits_ge n (Nat.not_lt.mp h)]
      intro c hc
      rcases List.mem_append.mp hc with hc | hc
      · exact ih (n / 10) (Nat.div_lt_self (by omega) (by omega)) c hc
      · rw [List.mem_singleton] at hc
        subst hc
        exact (digitChar_spec _ (Nat.mod_lt _ (by omega))).1

theorem natDigits_two_of_ge (n : Nat) (h : 10 ≤ n) :
    ∃ a b t, natDigits n = a :: b :: t ∧ b.isDigit = true := by
  rw [natDigits_ge n h]
  obtain ⟨c, t, hct⟩ := List.exists_cons_of_ne_nil (natDigits_ne_nil (n / 10))
  cases t with
  | nil =>
    refine ⟨c, digitChar (n % 10), [], by simp [hct], ?_⟩
    exact (digitChar_spec _ (Nat.mod_lt _ (by omega))).1
  | cons b t2 =>
    refine ⟨c, b, t2 ++ [digitChar (n % 10)], by simp [hct], ?_⟩
    exact natDigits_all_digit (n / 10) b (by simp [hct])

theorem parseDigitsFrom_append (a : List Char) : ∀ (acc : Nat) (b : List Char),
    parseDigitsFrom acc (a ++ b) =
      match parseDigitsFrom acc a with
      | some acc2 => parseDigitsFrom acc2 b
      | none => none := by
  induction a with
  | nil => intro acc b; simp [parseDigitsFrom]
  | cons c cs ih =>
    intro acc b
    by_cases h : c.isDigit
    · simp [parseDigitsFrom, h, ih]
    · simp [parseDigitsFrom, h]

theorem parseDigitsFrom_natDigits (n : Nat) : ∀ acc,
    parseDigitsFrom acc (natDigits n) = some (acc * 10 ^ (natDigits n).length + n) := by
  induction n using Nat.strong_induction_on with
  | _ n ih =>
    intro acc
    by_cases h : n < 10
    · obtain ⟨h1, h2⟩ := digitChar_spec n h
      rw [natDigits_lt n h]
      simp only [parseDigitsFrom, h1, if_true, h2, List.length_singleton, pow_one]
      exact congrArg some (by omega)
    · have h10 : 10 ≤ n := Nat.not_lt.mp h
      rw [natDigits_ge n h10, parseDigitsFrom_append]
      rw [ih (n / 10) (Nat.div_lt_self (by omega) (by omega)) acc]
      obtain ⟨hd1, hd2⟩ := digitChar_spec (n % 10) (Nat.mod_lt _ (by omega))
      simp only [parseDigitsFrom, hd1, if_true, hd2, List.length_append,
        List.length_singleton, pow_succ]
      refine congrArg some ?_
      rw [← mul_assoc]
      have hdm : 10 * (n / 10) + n % 10 = n := by omega
      generalize acc * 10 ^ (natDigits (n / 10)).length = A
      omega

theorem parseDigits_natDigits (n : Nat) : parseDigits (natDigits n) = some n := by
  obtain ⟨c, t, hct⟩ := List.exists_cons_of_ne_nil (natDigits_ne_nil n)
  rw [hct, parseDigits, ← hct, parseDigitsFrom_natDigits n 0]
  simp

theorem not_space_of_digit (c : Char) (h : c.isDigit = true) : isPySpace c = false := by
  by_contra hc
  rw [Bool.not_eq_false, isPySpace] at hc
  simp only [Bool.or_eq_true, beq_iff_eq] at hc
  rcases hc with ((((h1 | h1) | h1) | h1) | h1) | h1 <;> subst h1 <;> exact absurd h (by decide)

theorem dropWhile_eq_self_of_all (p : Char → Bool) (l : List Char)
    (h : ∀ c ∈ l, p c = false) : l.dropWhile p = l := by
  cases l with
  | nil => rfl
  | cons c t => simp [List.dropWhile, h c (by simp)]

theorem pyStrip_eq_self (l : List Char) (h : ∀ c ∈ l, isPySpace c = false) : pyStrip l = l := by
  unfold pyStrip
  rw [dropWhile_eq_self_of_all isPySpace l h]
  rw [dropWhile_eq_self_of_all isPySpace l.reverse fun c hc => h c (List.mem_reverse.mp hc)]
  exact List.reverse_reverse l

theorem intDigits_chars (i : Int) : ∀ c ∈ intDigits i, c.isDigit = true ∨ c = '-' := by
  intro c hc
  unfold intDigits at hc
  split at hc
  · rcases List.mem_cons.mp hc with h | h
    · right; exact h
    · left; exact natDigits_all_digit _ c h
  · left; exact natDigits_all_digit _ c hc

theorem pyInt_intDigits (i : Int) : pyInt (intDigits i) = some i := by
  have hstrip : pyStrip (intDigits i) = intDigits i := by
    apply pyStrip_eq_self
    intro c hc
    rcases intDigits_chars i c hc with h | h
    · exact not_space_of_digit c h
    · subst h; decide
  rw [pyInt]
  simp only [hstrip]
  by_cases h : i < 0
  · rw [intDigits, if_pos h]
    rw [if_neg (by simp), if_pos (by rfl)]
    rw [List.tail_cons, parseDigits_natDigits]
    exact congrArg some (show -(i.natAbs : Int) = i by omega)
  · rw [intDigits, if_neg h]
    obtain ⟨c, t, hct⟩ := List.exists_cons_of_ne_nil (natDigits_ne_nil i.natAbs)
    have hcd : c.isDigit = true :=
      natDigits_all_digit _ c (by rw [hct]; exact List.mem_cons_self c t)
    have hc1 : ¬ c = '-' := fun e => by subst e; exact absurd hcd (by decide)
    have hc2 : ¬ c = '+' := fun e => by subst e; exact absurd hcd (by decide)
    rw [hct]
    rw [if_neg (by simp), if_neg (by simpa using hc1), if_neg (by simpa using hc2)]
    rw [← hct, parseDigits_natDigits]
    exact congrArg some (show (i.natAbs : Int) = i by omega)

/-! ### Lemmas about `split` and the CSV round trip -/

theorem splitOn_no_sep (sep : Char) : ∀ (a : List Char), sep ∉ a → splitOn sep a = [a] := by
  intro a
  induction a with
  | nil => intro _; rfl
  | cons c t ih =>
    intro h
    have hc : ¬ c = sep := fun e => h (by simp [e])
    have ht : sep ∉ t := fun e => h (by simp [e])
    simp [splitOn, hc, ih ht]

theorem splitOn_append (sep : Char) : ∀ (a b : List Char), sep ∉ a →
    splitOn sep (a ++ sep :: b) = a :: splitOn sep b := by
  intro a
  induction a with
  | nil => intro b _; simp [splitOn]
  | cons c t ih =>
    intro b h
    have hc : ¬ c = sep := fun e => h (by simp [e])
    have ht : sep ∉ t := fun e => h (by simp [e])
    rw [List.cons_append, splitOn, if_neg hc, ih b ht]

theorem comma_not_in_intDigits (i : Int) : ',' ∉ intDigits i := by
  intro h
  rcases intDigits_chars i ',' h with h1 | h1
  · exact absurd h1 (by decide)
  · exact absurd h1 (by decide)

theorem splitOn_renderCsv : ∀ (xs : List Int), xs ≠ [] →
    splitOn ',' (renderCsv xs) = xs.map intDigits := by
  intro xs
  induction xs with
  | nil => intro h; cases h rfl
  | cons x t ih =>
    intro _
    cases t with
    | nil => simp [renderCsv, splitOn_no_sep ',' _ (comma_not_in_intDigits x)]
    | cons y t2 =>
      rw [renderCsv, splitOn_append ',' _ _ (comma_not_in_intDigits x), ih (by simp)]
      rfl

theorem mapM_pyInt_intDigits : ∀ (xs : List Int), (xs.map intDigits).mapM pyInt = some xs := by
  intro xs
  induction xs with
  | nil => rfl
  | cons x t ih => rw [List.map_cons, List.mapM_cons, pyInt_intDigits, ih]; rfl

theorem parseIntList_renderCsv (xs : List Int) (h : xs ≠ []) :
    parseIntList (renderCsv xs) = .ok xs := by
  rw [parseIntList, splitOn_renderCsv xs h, mapM_pyInt_intDigits]

theorem renderCsv_chars : ∀ (xs : List Int), ∀ c ∈ renderCsv xs,
    c.isDigit = true ∨ c = '-' ∨ c = ',' := by
  intro xs
  induction xs with
  | nil => intro c hc; simp [renderCsv] at hc
  | cons x t ih =>
    intro c hc
    cases t with
    | nil =>
      rw [renderCsv] at hc
      rcases intDigits_chars x c hc with h | h
      · left; exact h
      · right; left; exact h
    | cons y t2 =>
      rw [renderCsv] at hc
      rcases List.mem_append.mp hc with h | h
      · rcases intDigits_chars x c h with h1 | h1
        · left; exact h1
        · right; left; exact h1
      · rcases List.mem_cons.mp h with h1 | h1
        · right; right; exact h1
        · exact ih c h1

/-! ### Lemmas about `pyGet` and the port loop -/

theorem except_bind_ok {ε α β : Type} (a : α) (f : α → Except ε β) :
    (Except.ok a >>= f) = f a := rfl

theorem except_bind_error {ε α β : Type} (e : ε) (f : α → Except ε β) :
    ((Except.error e : Except ε α) >>= f) = Except.error e := rfl

theorem bind_ok_inv {ε α β : Type} (x : Except ε α) (f : α → Except ε β) (b : β)
    (h : (x >>= f) = .ok b) : ∃ a, x = .ok a ∧ f a = .ok b := by
  cases x with
  | error e => rw [except_bind_error] at h; exact Except.noConfusion h
  | ok a => rw [except_bind_ok] at h; exact ⟨a, rfl, h⟩

theorem bind_error_inv {ε α β : Type} (x : Except ε α) (f : α → Except ε β) (e : ε)
    (h : (x >>= f) = .error e) : x = .error e ∨ ∃ a, x = .ok a ∧ f a = .error e := by
  cases x with
  | error e1 =>
    rw [except_bind_error] at h
    injection h with h1
    left; rw [h1]
  | ok a => rw [except_bind_ok] at h; right; exact ⟨a, rfl, h⟩

theorem pyGet_error_kind {α : Type} (xs : List α) (i : Int) (e : ParseError)
    (h : pyGet xs i = .error e) : e = .indexOutOfRange := by
  simp only [pyGet] at h
  split at h
  · exact Except.noConfusion h
  · split at h
    · exact Except.noConfusion h
    · injection h with h1; exact h1.symm

theorem pyGet_ok_bounds {α : Type} (xs : List α) (i : Int) (a : α)
    (h : pyGet xs i = .ok a) : -(xs.length : Int) ≤ i ∧ i < xs.length := by
  simp only [pyGet] at h
  split at h
  · rename_i hcond; omega
  · split at h
    · rename_i hcond; omega
    · exact Except.noConfusion h

theorem pyGet_int_ok {α : Type} (xs : List α) (v : Int) (d : α)
    (h0 : 0 ≤ v) (h : v < xs.length) : pyGet xs v = .ok (xs.getD v.toNat d) := by
  simp only [pyGet]
  rw [dif_pos ⟨h0, h⟩]
  refine congrArg Except.ok ?_
  rw [List.get_eq_getElem]
  exact (List.getD_eq_getElem xs d (by omega)).symm

theorem buildPort_error_kind (s l k : List Int) (i : Nat) (e : ParseError)
    (h : buildPort s l k i = .error e) : e = .indexOutOfRange := by
  rw [buildPort] at h
  rcases bind_error_inv _ _ _ h with h1 | ⟨sv, _, h⟩
  · exact pyGet_error_kind _ _ _ h1
  rcases bind_error_inv _ _ _ h with h1 | ⟨st, _, h⟩
  · exact pyGet_error_kind _ _ _ h1
  rcases bind_error_inv _ _ _ h with h1 | ⟨lv, _, h⟩
  · exact pyGet_error_kind _ _ _ h1
  rcases bind_error_inv _ _ _ h with h1 | ⟨ll, _, h⟩
  · exact pyGet_error_kind _ _ _ h1
  rcases bind_error_inv _ _ _ h with h1 | ⟨a, _, h⟩
  · exact pyGet_error_kind _ _ _ h1
  rcases bind_error_inv _ _ _ h with h1 | ⟨b, _, h⟩
  · exact pyGet_error_kind _ _ _ h1
  rcases bind_error_inv _ _ _ h with h1 | ⟨c, _, h⟩
  · exact pyGet_error_kind _ _ _ h1
  rcases bind_error_inv _ _ _ h with h1 | ⟨d, _, h⟩
  · exact pyGet_error_kind _ _ _ h1
  exact Except.noConfusion h

theorem buildPort_ok_inv (s l k : List Int) (i : Nat) (r : PortRecord)
    (h : buildPort s l k i = .ok r) :
    (∃ sv, pyGet s (i : Int) = .ok sv ∧ ∃ st, pyGet state_info sv = .ok st) ∧
    (∃ d, pyGet k (4 * (i : Int) + 3) = .ok d) := by
  rw [buildPort] at h
  obtain ⟨sv, h1, h⟩ := bind_ok_inv _ _ _ h
  obtain ⟨st, h2, h⟩ := bind_ok_inv _ _ _ h
  obtain ⟨lv, h3, h⟩ := bind_ok_inv _ _ _ h
  obtain ⟨ll, h4, h⟩ := bind_ok_inv _ _ _ h
  obtain ⟨a, h5, h⟩ := bind_ok_inv _ _ _ h
  obtain ⟨b, h6, h⟩ := bind_ok_inv _ _ _ h
  obtain ⟨c, h7, h⟩ := bind_ok_inv _ _ _ h
  obtain ⟨d, h8, h⟩ := bind_ok_inv _ _ _ h
  exact ⟨⟨sv, h1, st, h2⟩, ⟨d, h8⟩⟩

theorem buildPortsLoop_error_kind (s l k : List Int) : ∀ (n : Nat) (e : ParseError),
    buildPortsLoop s l k n = .error e → e = .indexOutOfRange := by
  intro n
  induction n with
  | zero => intro e h; exact Except.noConfusion h
  | succ n ih =>
    intro e h
    rw [buildPortsLoop] at h
    rcases bind_error_inv _ _ _ h with h1 | ⟨rest, _, h⟩
    · exact ih e h1
    rcases bind_error_inv _ _ _ h with h1 | ⟨r, _, h⟩
    · exact buildPort_error_kind s l k n e h1
    exact Except.noConfusion h

theorem buildPortsLoop_ok_parts (s l k : List Int) : ∀ (n : Nat) (L : List (Nat × PortRecord)),
    buildPortsLoop s l k n = .ok L → ∀ i < n, ∃ r, buildPort s l k i = .ok r := by
  intro n
  induction n with
  | zero => intro L _ i hi; omega
  | succ n ih =>
    intro L h i hi
    rw [buildPortsLoop] at h
    obtain ⟨rest, h1, h⟩ := bind_ok_inv _ _ _ h
    obtain ⟨r, h2, _⟩ := bind_ok_inv _ _ _ h
    by_cases hin : i < n
    · exact ih rest h1 i hin
    · have hieq : i = n := by omega
      subst hieq
      exact ⟨r, h2⟩

theorem buildPort_ok (s l k : List Int) (i : Nat)
    (hsl : i < s.length) (hll : i < l.length) (hkl : 4 * i + 3 < k.length)
    (hsr : 0 ≤ s.getD i 0 ∧ s.getD i 0 ≤ 1) (hlr : 0 ≤ l.getD i 0 ∧ l.getD i 0 ≤ 7) :
    buildPort s l k i = .ok (expectedPort s l k i) := by
  rw [buildPort]
  have e1 : pyGet s (i : Int) = .ok (s.getD i 0) := by
    have := pyGet_int_ok s (i : Int) 0 (by omega) (by omega)
    rwa [show ((i : Int)).toNat = i by omega] at this
  rw [e1, except_bind_ok]
  have e2 : pyGet state_info (s.getD i 0) = .ok (state_info.getD (s.getD i 0).toNat "") :=
    pyGet_int_ok state_info _ "" hsr.1 (by
      have : s.getD i 0 ≤ 1 := hsr.2
      simp only [state_info, List.length_cons, List.length_nil]
      omega)
  rw [e2, except_bind_ok]
  have e3 : pyGet l (i : Int) = .ok (l.getD i 0) := by
    have := pyGet_int_ok l (i : Int) 0 (by omega) (by omega)
    rwa [show ((i : Int)).toNat = i by omega] at this
  rw [e3, except_bind_ok]
  have e4 : pyGet link_info (l.getD i 0) = .ok (link_info.getD (l.getD i 0).toNat "") :=
    pyGet_int_ok link_info _ "" hlr.1 (by
      have : l.getD i 0 ≤ 7 := hlr.2
      simp only [link_info, List.length_cons, List.length_nil]
      omega)
  rw [e4, except_bind_ok]
  have e5 : pyGet k (4 * (i : Int)) = .ok (k.getD (4 * i) 0) := by
    have := pyGet_int_ok k (4 * (i : Int)) 0 (by omega) (by omega)
    rwa [show (4 * (i : Int)).toNat = 4 * i by omega] at this
  rw [e5, except_bind_ok]
  have e6 : pyGet k (4 * (i : Int) + 1) = .ok (k.getD (4 * i + 1) 0) := by
    have := pyGet_int_ok k (4 * (i : Int) + 1) 0 (by omega) (by omega)
    rwa [show (4 * (i : Int) + 1).toNat = 4 * i + 1 by omega] at this
  rw [e6, except_bind_ok]
  have e7 : pyGet k (4 * (i : Int) + 2) = .ok (k.getD (4 * i + 2) 0) := by
    have := pyGet_int_ok k (4 * (i : Int) + 2) 0 (by omega) (by omega)
    rwa [show (4 * (i : Int) + 2).toNat = 4 * i + 2 by omega] at this
  rw [e7, except_bind_ok]
  have e8 : pyGet k (4 * (i : Int) + 3) = .ok (k.getD (4 * i + 3) 0) := by
    have := pyGet_int_ok k (4 * (i : Int) + 3) 0 (by omega) (by omega)
    rwa [show (4 * (i : Int) + 3).toNat = 4 * i + 3 by omega] at this
  rw [e8, except_bind_ok]
  rfl

theorem buildPortsLoop_ok (s l k : List Int) : ∀ (n : Nat),
    n ≤ s.length → n ≤ l.length → 4 * n ≤ k.length →
    (∀ i < n, 0 ≤ s.getD i 0 ∧ s.getD i 0 ≤ 1) →
    (∀ i < n, 0 ≤ l.getD i 0 ∧ l.getD i 0 ≤ 7) →
    buildPortsLoop s l k n = .ok (expectedPorts s l k n) := by
  intro n
  induction n with
  | zero => intro _ _ _ _ _; rfl
  | succ n ih =>
    intro hsl hll hkl hsr hlr
    rw [buildPortsLoop]
    rw [ih (by omega) (by omega) (by omega)
      (fun i hi => hsr i (by omega)) (fun i hi => hlr i (by omega))]
    rw [except_bind_ok]
    rw [buildPort_ok s l k n (by omega) (by omega) (by omega)
      (hsr n (by omega)) (hlr n (by omega))]
    rw [except_bind_ok]
    show Except.ok _ = _
    refine congrArg Except.ok ?_
    rw [expectedPorts, expectedPorts, List.range_succ, List.map_append]
    rfl

/-! ### Locating the four patterns on a rendered ports page -/

theorem csv_head_ne (xs : List Int) (p : Char)
    (hp : p.isDigit = false) (hd : p ≠ '-') (hc : p ≠ ',') :
    ∀ c ∈ renderCsv xs, p ≠ c := by
  intro c hmem he
  subst he
  rcases renderCsv_chars xs p hmem with h | h | h
  · rw [h] at hp; exact Bool.noConfusion hp
  · exact hd h
  · exact hc h

theorem natDigits_head_ne (n : Nat) (p : Char) (hp : p.isDigit = false) :
    ∀ c ∈ natDigits n, p ≠ c := by
  intro c hmem he
  subst he
  rw [natDigits_all_digit n p hmem] at hp
  exact Bool.noConfusion hp

theorem matchArray_none_of_matchLit (pat close : List Char) (s : List Char)
    (h : matchLit pat s = none) : matchArray pat close s = none := by
  rw [matchArray, h]

theorem matchMaxPort_none_of_matchLit (s : List Char)
    (h : matchLit maxPortLit s = none) : matchMaxPort s = none := by
  rw [matchMaxPort, h]

theorem skip_seg {α : Type} (m : List Char → Option α) (pat : List Char) (h : Char)
    (ps : List Char) (hpat : pat = h :: ps)
    (hm : ∀ s, matchLit pat s = none → m s = none)
    (seg : List Char) (hseg : ∀ c ∈ seg, h ≠ c) (rest : List Char) :
    searchWith m (seg ++ rest) = searchWith m rest := by
  subst hpat
  exact searchWith_skip_seg m h ps seg rest hm hseg

theorem skip_one {α : Type} (m : List Char → Option α) (pat : List Char) (h : Char)
    (ps : List Char) (hpat : pat = h :: ps)
    (hm : ∀ s, matchLit pat s = none → m s = none)
    (c : Char) (hc : h ≠ c) (s : List Char) :
    searchWith m (c :: s) = searchWith m s := by
  subst hpat
  exact searchWith_cons_none m c s (hm _ (matchLit_ne_head h ps c s hc))

theorem skip_lit {α : Type} (m : List Char → Option α) (pat : List Char)
    (hm : ∀ s, matchLit pat s = none → m s = none)
    (lit : List Char) (hlit : noLitMatch pat lit = true) (rest : List Char) :
    searchWith m (lit ++ rest) = searchWith m rest :=
  searchWith_skip_lit m pat lit rest hm hlit

theorem matchMaxPort_at (n : Nat) (h : n < 10) (rest : List Char) :
    matchMaxPort (maxPortLit ++ ([digitChar n] ++ (';' :: rest))) = some n := by
  rw [matchMaxPort, matchLit_self, List.singleton_append]
  show (if (digitChar n).isDigit && (';' == ';') then some ((digitChar n).toNat - 48) else none)
      = some n
  rw [(digitChar_spec n h).1]
  simp only [beq_self_eq_true, Bool.and_self, if_true]
  rw [(digitChar_spec n h).2]

theorem matchArray_at2 (pat : List Char) (d c2 : Char) (a r : List Char)
    (ha : ∀ x ∈ a, d ≠ x) :
    matchArray pat [d, c2] (pat ++ (a ++ (d :: c2 :: r))) = some a := by
  rw [matchArray, matchLit_self]
  exact upTo_spec2 d c2 a r ha

theorem matchArray_at1 (pat : List Char) (d : Char) (a r : List Char)
    (ha : ∀ x ∈ a, d ≠ x) :
    matchArray pat [d] (pat ++ (a ++ (d :: r))) = some a := by
  rw [matchArray, matchLit_self]
  exact upTo_spec1 d a r ha

theorem search_maxPort_render (p : PortsPage) (h9 : p.maxPortNum < 10) :
    searchWith matchMaxPort (renderPortsPage p) = some p.maxPortNum := by
  rw [renderPortsPage, natDigits_lt _ h9]
  exact searchWith_hit _ _ _ (matchMaxPort_at p.maxPortNum h9 _)

theorem search_state_render (p : PortsPage) :
    searchWith (matchArray stateLit closeBracketComma) (renderPortsPage p)
      = some (renderCsv p.state) := by
  have hm : ∀ s, matchLit stateLit s = none →
      matchArray stateLit closeBracketComma s = none :=
    fun s hs => matchArray_none_of_matchLit _ _ s hs
  rw [renderPortsPage]
  rw [skip_seg _ stateLit 's' "tate:[".toList rfl hm maxPortLit (by decide)]
  rw [skip_seg _ stateLit 's' "tate:[".toList rfl hm (natDigits p.maxPortNum)
    (natDigits_head_ne _ 's' (by decide))]
  rw [skip_one _ stateLit 's' "tate:[".toList rfl hm ';' (by decide)]
  rw [skip_one _ stateLit 's' "tate:[".toList rfl hm '\x0a' (by decide)]
  exact searchWith_hit _ _ _
    (matchArray_at2 stateLit ']' ',' (renderCsv p.state) _
      (csv_head_ne p.state ']' (by decide) (by decide) (by decide)))

theorem search_link_render (p : PortsPage) :
    searchWith (matchArray linkLit closeBracketComma) (renderPortsPage p)
      = some (renderCsv p.linkStatus) := by
  have hm : ∀ s, matchLit linkLit s = none →
      matchArray linkLit closeBracketComma s = none :=
    fun s hs => matchArray_none_of_matchLit _ _ s hs
  rw [renderPortsPage]
  rw [skip_seg _ linkLit 'l' "ink_status:[".toList rfl hm maxPortLit (by decide)]
  rw [skip_seg _ linkLit 'l' "ink_status:[".toList rfl hm (natDigits p.maxPortNum)
    (natDigits_head_ne _ 'l' (by decide))]
  rw [skip_one _ linkLit 'l' "ink_status:[".toList rfl hm ';' (by decide)]
  rw [skip_one _ linkLit 'l' "ink_status:[".toList rfl hm '\x0a' (by decide)]
  rw [skip_seg _ linkLit 'l' "ink_status:[".toList rfl hm stateLit (by decide)]
  rw [skip_seg _ linkLit 'l' "ink_status:[".toList rfl hm (renderCsv p.state)
    (csv_head_ne p.state 'l' (by decide) (by decide) (by decide))]
  rw [skip_one _ linkLit 'l' "ink_status:[".toList rfl hm ']' (by decide)]
  rw [skip_one _ linkLit 'l' "ink_status:[".toList rfl hm ',' (by decide)]
  rw [skip_one _ linkLit 'l' "ink_status:[".toList rfl hm '\x0a' (by decide)]
  exact searchWith_hit _ _ _
    (matchArray_at2 linkLit ']' ',' (renderCsv p.linkStatus) _
      (csv_head_ne p.linkStatus ']' (by decide) (by decide) (by decide)))

theorem search_pkts_render (p : PortsPage) :
    searchWith (matchArray pktsLit closeBracket) (renderPortsPage p)
      = some (renderCsv p.pkts) := by
  have hm : ∀ s, matchLit pktsLit s = none →
      matchArray pktsLit closeBracket s = none :=
    fun s hs => matchArray_none_of_matchLit _ _ s hs
  rw [renderPortsPage]
  rw [skip_lit _ pktsLit hm maxPortLit (by decide)]
  rw [skip_seg _ pktsLit 'p' "kts:[".toList rfl hm (natDigits p.maxPortNum)
    (natDigits_head_ne _ 'p' (by decide))]
  rw [skip_one _ pktsLit 'p' "kts:[".toList rfl hm ';' (by decide)]
  rw [skip_one _ pktsLit 'p' "kts:[".toList rfl hm '\x0a' (by decide)]
  rw [skip_seg _ pktsLit 'p' "kts:[".toList rfl hm stateLit (by decide)]
  rw [skip_seg _ pktsLit 'p' "kts:[".toList rfl hm (renderCsv p.state)
    (csv_head_ne p.state 'p' (by decide) (by decide) (by decide))]
  rw [skip_one _ pktsLit 'p' "kts:[".toList rfl hm ']' (by decide)]
  rw [skip_one _ pktsLit 'p' "kts:[".toList rfl hm ',' (by decide)]
  rw [skip_one _ pktsLit 'p' "kts:[".toList rfl hm '\x0a' (by decide)]
  rw [skip_seg _ pktsLit 'p' "kts:[".toList rfl hm linkLit (by decide)]
  rw [skip_seg _ pktsLit 'p' "kts:[".toList rfl hm (renderCsv p.linkStatus)
    (csv_head_ne p.linkStatus 'p' (by decide) (by decide) (by decide))]
  rw [skip_one _ pktsLit 'p' "kts:[".toList rfl hm ']' (by decide)]
  rw [skip_one _ pktsLit 'p' "kts:[".toList rfl hm ',' (by decide)]
  rw [skip_one _ pktsLit 'p' "kts:[".toList rfl hm '\x0a' (by decide)]
  exact searchWith_hit _ _ _
    (matchArray_at1 pktsLit ']' (renderCsv p.pkts) _
      (csv_head_ne p.pkts ']' (by decide) (by decide) (by decide)))

/-- On a well-formed ports page whose port count is a single digit and
whose three arrays are non-empty, `parse_ports_info` reduces to the port
loop over the embedded arrays. -/
theorem parse_render (p : PortsPage) (h9 : p.maxPortNum < 10)
    (hs : p.state ≠ []) (hl : p.linkStatus ≠ []) (hp : p.pkts ≠ []) :
    parse_ports_info (renderPortsPage p) =
      buildPortsLoop p.state p.linkStatus p.pkts p.maxPortNum := by
  simp only [parse_ports_info, search_maxPort_render p h9, search_state_render p,
    search_link_render p, search_pkts_render p, optErr,
    parseIntList_renderCsv _ hs, parseIntList_renderCsv _ hl, parseIntList_renderCsv _ hp,
    except_bind_ok]

/-- With a two-digit port count, the `var max_port_num = (\d);` pattern
matches nowhere on the page. -/
theorem search_maxPort_none (p : PortsPage) (h : 10 ≤ p.maxPortNum) :
    searchWith matchMaxPort (renderPortsPage p) = none := by
  have hm : ∀ s, matchLit maxPortLit s = none → matchMaxPort s = none :=
    fun s hs => matchMaxPort_none_of_matchLit s hs
  obtain ⟨a, b, t, hab, hbd⟩ := natDigits_two_of_ge p.maxPortNum h
  have hd : ∀ c ∈ natDigits p.maxPortNum, 'v' ≠ c := natDigits_head_ne _ 'v' (by decide)
  rw [renderPortsPage, hab]
  have h0 : matchMaxPort (maxPortLit ++ ((a :: b :: t) ++ (';' :: '\x0a' ::
      (stateLit ++ (renderCsv p.state ++ (']' :: ',' :: '\x0a' ::
      (linkLit ++ (renderCsv p.linkStatus ++ (']' :: ',' :: '\x0a' ::
      (pktsLit ++ (renderCsv p.pkts ++ (']' :: '\x0a' :: [])))))))))))) = none := by
    rw [matchMaxPort, matchLit_self, List.cons_append, List.cons_append]
    show (if a.isDigit && (b == ';') then some (a.toNat - 48) else none) = none
    have hb : (b == ';') = false := by
      refine beq_eq_false_iff_ne.mpr fun e => ?_
      subst e; exact absurd hbd (by decide)
    rw [hb, Bool.and_false, if_neg (by simp)]
  rw [show maxPortLit = 'v' :: "ar max_port_num = ".toList from rfl] at h0 ⊢
  rw [List.cons_append] at h0 ⊢
  rw [searchWith_cons_none matchMaxPort 'v' _ h0]
  rw [skip_seg _ maxPortLit 'v' "ar max_port_num = ".toList rfl hm
    "ar max_port_num = ".toList (by decide)]
  rw [show (a :: b :: t) = natDigits p.maxPortNum from hab.symm]
  rw [skip_seg _ maxPortLit 'v' "ar max_port_num = ".toList rfl hm
    (natDigits p.maxPortNum) hd]
  rw [skip_one _ maxPortLit 'v' "ar max_port_num = ".toList rfl hm ';' (by decide)]
  rw [skip_one _ maxPortLit 'v' "ar max_port_num = ".toList rfl hm '\x0a' (by decide)]
  rw [skip_seg _ maxPortLit 'v' "ar max_port_num = ".toList rfl hm stateLit (by decide)]
  rw [skip_seg _ maxPortLit 'v' "ar max_port_num = ".toList rfl hm (renderCsv p.state)
    (csv_head_ne p.state 'v' (by decide) (by decide) (by decide))]
  rw [skip_one _ maxPortLit 'v' "ar max_port_num = ".toList rfl hm ']' (by decide)]
  rw [skip_one _ maxPortLit 'v' "ar max_port_num = ".toList rfl hm ',' (by decide)]
  rw [skip_one _ maxPortLit 'v' "ar max_port_num = ".toList rfl hm '\x0a' (by decide)]
  rw [skip_seg _ maxPortLit 'v' "ar max_port_num = ".toList rfl hm linkLit (by decide)]
  rw [skip_seg _ maxPortLit 'v' "ar max_port_num = ".toList rfl hm (renderCsv p.linkStatus)
    (csv_head_ne p.linkStatus 'v' (by decide) (by decide) (by decide))]
  rw [skip_one _ maxPortLit 'v' "ar max_port_num = ".toList rfl hm ']' (by decide)]
  rw [skip_one _ maxPortLit 'v' "ar max_port_num = ".toList rfl hm ',' (by decide)]
  rw [skip_one _ maxPortLit 'v' "ar max_port_num = ".toList rfl hm '\x0a' (by decide)]
  rw [skip_seg _ maxPortLit 'v' "ar max_port_num = ".toList rfl hm pktsLit (by decide)]
  rw [skip_seg _ maxPortLit 'v' "ar max_port_num = ".toList rfl hm (renderCsv p.pkts)
    (csv_head_ne p.pkts 'v' (by decide) (by decide) (by decide))]
  rw [skip_one _ maxPortLit 'v' "ar max_port_num = ".toList rfl hm ']' (by decide)]
  rw [skip_one _ maxPortLit 'v' "ar max_port_num = ".toList rfl hm '\x0a' (by decide)]
  exact searchWith_nil_none matchMaxPort (by decide)

theorem expectedPorts_getD (s l k : List Int) (n i : Nat) (hi : i < n)
    (d : Nat × PortRecord) :
    (expectedPorts s l k n).getD i d = (i + 1, expectedPort s l k i) := by
  rw [expectedPorts]
  rw [List.getD_eq_getElem _ _ (by simpa using hi)]
  simp

/-! ### Claim theorems: the ports page -/

/-- C1 (amended: additionally `1 ≤ N ≤ 9`; the `(\d)` pattern of line 105
only matches a single-digit port count, and an empty array would already
fail integer decoding): for every ports page with `max_port_num = N`,
`state` and `link_status` arrays of exactly `N` integers in lookup range
and a `pkts` array of exactly `4N` integers, `parse_ports_info` returns
exactly `N` records, `port_num` running `1..N` in ascending order, and
record `i` carries the four counters `pkts[4(i-1) .. 4(i-1)+3]`. -/
theorem extract_ports_info_counts (p : PortsPage)
    (h1 : 1 ≤ p.maxPortNum) (h9 : p.maxPortNum ≤ 9)
    (hsl : p.state.length = p.maxPortNum) (hll : p.linkStatus.length = p.maxPortNum)
    (hkl : p.pkts.length = 4 * p.maxPortNum)
    (hsr : ∀ i < p.maxPortNum, 0 ≤ p.state.getD i 0 ∧ p.state.getD i 0 ≤ 1)
    (hlr : ∀ i < p.maxPortNum, 0 ≤ p.linkStatus.getD i 0 ∧ p.linkStatus.getD i 0 ≤ 7) :
    ∃ L, parse_ports_info (renderPortsPage p) = .ok L ∧
      L.length = p.maxPortNum ∧
      (∀ i < p.maxPortNum,
        (L.getD i (0, ⟨"", "", 0, 0, 0, 0⟩)).1 = i + 1 ∧
        (L.getD i (0, ⟨"", "", 0, 0, 0, 0⟩)).2.txgoodpkt = p.pkts.getD (4 * i) 0 ∧
        (L.getD i (0, ⟨"", "", 0, 0, 0, 0⟩)).2.txbadpkt = p.pkts.getD (4 * i + 1) 0 ∧
        (L.getD i (0, ⟨"", "", 0, 0, 0, 0⟩)).2.rxgoodpkt = p.pkts.getD (4 * i + 2) 0 ∧
        (L.getD i (0, ⟨"", "", 0, 0, 0, 0⟩)).2.rxbadpkt = p.pkts.getD (4 * i + 3) 0) := by
  have hs : p.state ≠ [] := List.length_pos.mp (by omega)
  have hl : p.linkStatus ≠ [] := List.length_pos.mp (by omega)
  have hp : p.pkts ≠ [] := List.length_pos.mp (by omega)
  refine ⟨expectedPorts p.state p.linkStatus p.pkts p.maxPortNum, ?_, ?_, ?_⟩
  · rw [parse_render p (by omega) hs hl hp]
    exact buildPortsLoop_ok _ _ _ _ (by omega) (by omega) (by omega) hsr hlr
  · rw [expectedPorts]; simp
  · intro i hi
    rw [expectedPorts_getD _ _ _ _ i hi]
    exact ⟨rfl, rfl, rfl, rfl, rfl⟩

/-- C1 witness: the amended theorem applied to the two-port fixture. -/
theorem extract_ports_info_counts_witness :
    ∃ L, parse_ports_info (renderPortsPage fixturePage) = .ok L ∧
      L.length = fixturePage.maxPortNum ∧
      (∀ i < fixturePage.maxPortNum,
        (L.getD i (0, ⟨"", "", 0, 0, 0, 0⟩)).1 = i + 1 ∧
        (L.getD i (0, ⟨"", "", 0, 0, 0, 0⟩)).2.txgoodpkt = fixturePage.pkts.getD (4 * i) 0 ∧
        (L.getD i (0, ⟨"", "", 0, 0, 0, 0⟩)).2.txbadpkt = fixturePage.pkts.getD (4 * i + 1) 0 ∧
        (L.getD i (0, ⟨"", "", 0, 0, 0, 0⟩)).2.rxgoodpkt = fixturePage.pkts.getD (4 * i + 2) 0 ∧
        (L.getD i (0, ⟨"", "", 0, 0, 0, 0⟩)).2.rxbadpkt = fixturePage.pkts.getD (4 * i + 3) 0) :=
  extract_ports_info_counts fixturePage (by decide) (by decide) (by decide) (by decide)
    (by decide) (by decide) (by decide)

/-- C1 counterexample: a page with `max_port_num = 10`, in-range arrays
of lengths 10/10/40, on which the claim as stated fails: the parse
errors with `patternNotFound` instead of returning ten records. -/
theorem extract_ports_info_counts_cex :
    tenPortPage.maxPortNum = 10 ∧
    tenPortPage.state.length = tenPortPage.maxPortNum ∧
    tenPortPage.linkStatus.length = tenPortPage.maxPortNum ∧
    tenPortPage.pkts.length = 4 * tenPortPage.maxPortNum ∧
    parse_ports_info (renderPortsPage tenPortPage) = .error .patternNotFound := by
  decide

/-- C2 (amended: the page must be parseable — single-digit `N`, arrays
non-empty — and out of range means outside `[-2, 1]`; the Python lookup
`state_info[state[index]]` resolves `-1` and `-2` through negative
indexing instead of failing): if some `state[i]` with `i < N` is below
`-2` or above `1`, parsing fails with `IndexOutOfRange`. -/
theorem state_out_of_range_fails (p : PortsPage) (h9 : p.maxPortNum < 10)
    (hl : p.linkStatus ≠ []) (hp : p.pkts ≠ [])
    (i : Nat) (v : Int) (hi : i < p.maxPortNum)
    (hv : p.state.get? i = some v) (hout : v < -2 ∨ 1 < v) :
    parse_ports_info (renderPortsPage p) = .error .indexOutOfRange := by
  have hs : p.state ≠ [] := by
    intro e; rw [e] at hv; exact Option.noConfusion hv
  have hilen : i < p.state.length := List.get?_eq_some.mp hv |>.1
  rw [parse_render p h9 hs hl hp]
  cases hres : buildPortsLoop p.state p.linkStatus p.pkts p.maxPortNum with
  | error e => rw [buildPortsLoop_error_kind _ _ _ _ e hres]
  | ok L =>
    exfalso
    obtain ⟨r, hr⟩ := buildPortsLoop_ok_parts _ _ _ _ L hres i hi
    obtain ⟨⟨sv, hsv, st, hst⟩, _⟩ := buildPort_ok_inv _ _ _ i r hr
    have hval := pyGet_int_ok p.state (i : Int) 0 (by omega) (by omega)
    rw [hval] at hsv
    injection hsv with hsv
    have hgd : p.state.getD ((i : Int)).toNat 0 = v := by
      rw [show ((i : Int)).toNat = i by omega]
      rw [List.getD_eq_getElem _ _ hilen]
      have := List.get?_eq_some.mp hv
      rw [← this.2, List.get_eq_getElem]
    rw [hgd] at hsv
    have hb2 := pyGet_ok_bounds _ _ _ hst
    rw [show (state_info.length : Int) = 2 by decide] at hb2
    subst hsv
    omega

/-- C2 witness: the amended theorem applied at `state = [2]`. -/
theorem state_out_of_range_fails_witness :
    parse_ports_info (renderPortsPage bigStatePage) = .error .indexOutOfRange :=
  state_out_of_range_fails bigStatePage (by decide) (by decide) (by decide)
    0 2 (by decide) (by decide) (by decide)

/-- C2 counterexample: with `state = [-1]` (an integer outside `[0,1]`,
negative) the parse does not fail: it silently maps the value to the
label `Enabled` through Python negative indexing. -/
theorem state_out_of_range_cex :
    negStatePage.state = [-1] ∧
    parse_ports_info (renderPortsPage negStatePage) =
      .ok [(1, { status := "Enabled", linkStatus := "Link Down",
                 txgoodpkt := 0, txbadpkt := 0, rxgoodpkt := 0, rxbadpkt := 0 })] := by
  decide

/-- C6 (amended: the page must be parseable — single-digit `N` and a
non-empty `pkts` array; an empty `pkts` array fails earlier, at integer
decoding, with `MalformedLiteral`): if `pkts` has fewer than `4*N`
entries while `state` and `link_status` are long enough and in range,
parsing fails with `IndexOutOfRange` rather than returning a truncated
port list. -/
theorem pkts_short_fails (p : PortsPage) (h9 : p.maxPortNum < 10)
    (hs : p.state ≠ []) (hl : p.linkStatus ≠ []) (hp : p.pkts ≠ [])
    (_hsl : p.maxPortNum ≤ p.state.length) (_hll : p.maxPortNum ≤ p.linkStatus.length)
    (_hsr : ∀ i < p.maxPortNum, 0 ≤ p.state.getD i 0 ∧ p.state.getD i 0 ≤ 1)
    (_hlr : ∀ i < p.maxPortNum, 0 ≤ p.linkStatus.getD i 0 ∧ p.linkStatus.getD i 0 ≤ 7)
    (hshort : p.pkts.length < 4 * p.maxPortNum) :
    parse_ports_info (renderPortsPage p) = .error .indexOutOfRange := by
  rw [parse_render p h9 hs hl hp]
  cases hres : buildPortsLoop p.state p.linkStatus p.pkts p.maxPortNum with
  | error e => rw [buildPortsLoop_error_kind _ _ _ _ e hres]
  | ok L =>
    exfalso
    have hN : 1 ≤ p.maxPortNum := by omega
    obtain ⟨r, hr⟩ := buildPortsLoop_ok_parts _ _ _ _ L hres (p.maxPortNum - 1) (by omega)
    obtain ⟨_, d, hd2⟩ := buildPort_ok_inv _ _ _ _ r hr
    have hb := pyGet_ok_bounds _ _ _ hd2
    omega

/-- C6 witness: the amended theorem applied at a two-port page whose
`pkts` array has only seven entries. -/
theorem pkts_short_fails_witness :
    parse_ports_info (renderPortsPage shortPktsPage) = .error .indexOutOfRange :=
  pkts_short_fails shortPktsPage (by decide) (by decide) (by decide) (by decide)
    (by decide) (by decide) (by decide) (by decide) (by decide)

/-- C6 counterexample: a one-port page with an empty `pkts` array (zero
entries, fewer than four): the parse fails, but with `MalformedLiteral`
from `int('')`, not with `IndexOutOfRange` as the claim states. -/
theorem pkts_short_cex :
    emptyPktsPage.state = [0] ∧ emptyPktsPage.linkStatus = [0] ∧
    emptyPktsPage.pkts.length < 4 * emptyPktsPage.maxPortNum ∧
    parse_ports_info (renderPortsPage emptyPktsPage) = .error .malformedLiteral := by
  decide

/-- C7: on the fixture page (`max_port_num = 2`, `state:[1,0]`,
`link_status:[5,0]`, `pkts:[10,0,20,1,0,0,0,0]`), the parse yields
port 1 = Enabled/100Full with counters 10,0,20,1 and
port 2 = Disabled/Link Down with all counters 0. -/
theorem fixture_ports_parse :
    parse_ports_info (renderPortsPage fixturePage) =
      .ok [(1, { status := "Enabled", linkStatus := "100Full",
                 txgoodpkt := 10, txbadpkt := 0, rxgoodpkt := 20, rxbadpkt := 1 }),
           (2, { status := "Disabled", linkStatus := "Link Down",
                 txgoodpkt := 0, txbadpkt := 0, rxgoodpkt := 0, rxbadpkt := 0 })] := by
  decide

/-- C10: the port-count pattern `var max_port_num = (\d);` matches a
single decimal digit only, so every rendered page whose port count is
10 or more fails with the pattern-not-found error. -/
theorem two_digit_port_count_fails (p : PortsPage) (h : 10 ≤ p.maxPortNum) :
    parse_ports_info (renderPortsPage p) = .error .patternNotFound := by
  simp only [parse_ports_info, search_maxPort_none p h, optErr, except_bind_error]

/-- C10 witness: the theorem applied at the ten-port page. -/
theorem two_digit_port_count_fails_witness :
    parse_ports_info (renderPortsPage tenPortPage) = .error .patternNotFound :=
  two_digit_port_count_fails tenPortPage (by decide)

/-! ### Claim theorems: DAO layer and serialization -/

theorem dictGet_error (m : List (String × String)) (k : String) (e : DAOError)
    (h : dictGet m k = .error e) : e = .missingKey k := by
  rw [dictGet] at h
  cases hl : m.reverse.lookup k with
  | some v => rw [hl] at h; exact Except.noConfusion h
  | none => rw [hl] at h; injection h with h1; exact h1.symm

/-- C5: `logon` yields the session exactly when the `logon.cgi` POST
returns HTTP status 200; any other status raises with that code,
whatever the response body contains. -/
theorem logon_iff_status_200 (st : Nat) (b : List Char) :
    (st = 200 → logon st b = .ok ()) ∧ (st ≠ 200 → logon st b = .error (.httpStatus st)) :=
  ⟨fun h => by rw [logon, if_pos h], fun h => by rw [logon, if_neg h]⟩

/-- C5 witness: status 200 logs in, status 403 fails with that code. -/
theorem logon_iff_status_200_witness :
    logon 200 [] = .ok () ∧ logon 403 [] = .error (.httpStatus 403) :=
  ⟨(logon_iff_status_200 200 []).1 rfl, (logon_iff_status_200 403 []).2 (by decide)⟩

/-- C4: `ports_info_loader` replaces the port sequence atomically: on any
failure the owned device is untouched; on success the whole `ports`
field is the freshly parsed list (and nothing else changes). -/
theorem ports_loader_atomic (sw : SwitchTPL) (f : Except TransportError (List Char)) :
    (exceptOk (ports_info_loader sw f).1 = false → (ports_info_loader sw f).2 = sw) ∧
    (exceptOk (ports_info_loader sw f).1 = true →
      ∃ text infos, f = .ok text ∧ parse_ports_info text = .ok infos ∧
        (ports_info_loader sw f).2 = { sw with ports := infos.map mkSwitchPort }) := by
  cases f with
  | error e =>
    exact ⟨fun _ => rfl, fun h => by simp [ports_info_loader, exceptOk] at h⟩
  | ok text =>
    cases hp : parse_ports_info text with
    | error e =>
      refine ⟨fun _ => ?_, fun h => ?_⟩
      · simp [ports_info_loader, hp]
      · simp [ports_info_loader, hp, exceptOk] at h
    | ok infos =>
      refine ⟨fun h => ?_, fun _ => ⟨text, infos, rfl, hp, ?_⟩⟩
      · simp [ports_info_loader, hp, exceptOk] at h
      · simp [ports_info_loader, hp]

/-- C4 witness: a failed fetch leaves the populated device unchanged. -/
theorem ports_loader_atomic_witness :
    (ports_info_loader populatedSwitch (.error .failure)).2 = populatedSwitch :=
  (ports_loader_atomic populatedSwitch (.error .failure)).1 (by decide)

/-- C3 (amended: atomicity holds for fetch and parse failures only; a
missing required key aborts mid-sequence and leaves the fields assigned
before it updated, as the counterexample shows): if `sys_info_loader`
fails with anything other than a `KeyError` on the parsed mapping, every
field of the owned device is left exactly as it was. -/
theorem sys_loader_atomic_on_fetch_parse_failure (sw : SwitchTPL)
    (f : Except TransportError (List Char)) (err : DAOError)
    (h : (sys_info_loader sw f).1 = .error err) (hmk : isMissingKey err = false) :
    (sys_info_loader sw f).2 = sw := by
  cases f with
  | error e => rfl
  | ok text =>
    simp only [sys_info_loader] at h ⊢
    cases hp : parse_system_info text with
    | error e => simp only [hp]
    | ok m =>
      simp only [hp] at h ⊢
      cases h1 : dictGet m "descriStr" with
      | error e => simp only [h1]
      | ok v1 =>
        simp only [h1] at h ⊢
        cases h2 : dictGet m "macStr" with
        | error e =>
          exfalso
          simp only [h2] at h
          injection h with h'
          rw [← h', dictGet_error m "macStr" e h2] at hmk
          exact Bool.noConfusion hmk
        | ok v2 =>
          simp only [h2] at h ⊢
          cases h3 : dictGet m "ipStr" with
          | error e =>
            exfalso
            simp only [h3] at h
            injection h with h'
            rw [← h', dictGet_error m "ipStr" e h3] at hmk
            exact Bool.noConfusion hmk
          | ok v3 =>
            simp only [h3] at h ⊢
            cases h4 : dictGet m "netmaskStr" with
            | error e =>
              exfalso
              simp only [h4] at h
              injection h with h'
              rw [← h', dictGet_error m "netmaskStr" e h4] at hmk
              exact Bool.noConfusion hmk
            | ok v4 =>
              simp only [h4] at h ⊢
              cases h5 : dictGet m "gatewayStr" with
              | error e =>
                exfalso
                simp only [h5] at h
                injection h with h'
                rw [← h', dictGet_error m "gatewayStr" e h5] at hmk
                exact Bool.noConfusion hmk
              | ok v5 =>
                simp only [h5] at h ⊢
                cases h6 : dictGet m "firmwareStr" with
                | error e =>
                  exfalso
                  simp only [h6] at h
                  injection h with h'
                  rw [← h', dictGet_error m "firmwareStr" e h6] at hmk
                  exact Bool.noConfusion hmk
                | ok v6 =>
                  simp only [h6] at h ⊢
                  cases h7 : dictGet m "hardwareStr" with
                  | error e =>
                    exfalso
                    simp only [h7] at h
                    injection h with h'
                    rw [← h', dictGet_error m "hardwareStr" e h7] at hmk
                    exact Bool.noConfusion hmk
                  | ok v7 =>
                    exfalso
                    simp only [h7] at h
                    exact Except.noConfusion h

/-- C3 witness: an unparsable page leaves the device untouched. -/
theorem sys_loader_atomic_witness :
    (sys_info_loader populatedSwitch (.ok ['x'])).2 = populatedSwitch :=
  sys_loader_atomic_on_fetch_parse_failure populatedSwitch (.ok ['x'])
    (.parse .patternNotFound) (by decide) (by decide)

/-- C3 counterexample: a fetched page carrying only `descriStr` parses
fine, then the loader assigns `description` before the `KeyError` on
`macStr`, so the failed call leaves the device partially updated. -/
theorem sys_loader_partial_update_cex :
    (sys_info_loader populatedSwitch (.ok oneKeySysText)).1 = .error (.missingKey "macStr") ∧
    populatedSwitch.description = some "old-name" ∧
    (sys_info_loader populatedSwitch (.ok oneKeySysText)).2.description = some "NEW" ∧
    (sys_info_loader populatedSwitch (.ok oneKeySysText)).2 ≠ populatedSwitch := by
  decide

theorem readPort_to_dict (p : SwitchPort) : readPort p.to_dict = some p := by
  obtain ⟨pn, st, ls, a, b, c, d⟩ := p
  simp [readPort, SwitchPort.to_dict, jGet, List.lookup, jAsInt, jAsStr]

theorem mapM_readPort_to_dict : ∀ (ps : List SwitchPort),
    (ps.map SwitchPort.to_dict).mapM readPort = some ps := by
  intro ps
  induction ps with
  | nil => rfl
  | cons p t ih => rw [List.map_cons, List.mapM_cons, readPort_to_dict, ih]; rfl

/-- C9: serializing a fully populated device to the output tree and
re-reading the tree restores all seven system-info fields and, for every
port, the same `port_num`, labels and the four integer counters (the
counters are read back with `jAsInt`, which rejects strings, so a
successful round trip certifies they were never coerced to strings). -/
theorem device_tree_roundtrip (sw : SwitchTPL)
    (h1 : sw.description.isSome = true) (h2 : sw.mac_address.isSome = true)
    (h3 : sw.ip_address.isSome = true) (h4 : sw.subnet_mask.isSome = true)
    (h5 : sw.gateway.isSome = true) (h6 : sw.firmware.isSome = true)
    (h7 : sw.hardware.isSome = true) :
    ∃ sw2, readDevice sw.to_dict = some sw2 ∧
      sw2.description = sw.description ∧ sw2.mac_address = sw.mac_address ∧
      sw2.ip_address = sw.ip_address ∧ sw2.subnet_mask = sw.subnet_mask ∧
      sw2.gateway = sw.gateway ∧ sw2.firmware = sw.firmware ∧
      sw2.hardware = sw.hardware ∧ sw2.ports = sw.ports := by
  obtain ⟨d1, hd1⟩ := Option.isSome_iff_exists.mp h1
  obtain ⟨d2, hd2⟩ := Option.isSome_iff_exists.mp h2
  obtain ⟨d3, hd3⟩ := Option.isSome_iff_exists.mp h3
  obtain ⟨d4, hd4⟩ := Option.isSome_iff_exists.mp h4
  obtain ⟨d5, hd5⟩ := Option.isSome_iff_exists.mp h5
  obtain ⟨d6, hd6⟩ := Option.isSome_iff_exists.mp h6
  obtain ⟨d7, hd7⟩ := Option.isSome_iff_exists.mp h7
  refine ⟨{ description := some d1, mac_address := some d2, ip_address := some d3,
            subnet_mask := some d4, gateway := some d5, firmware := some d6,
            hardware := some d7, port_number := 0, ports := sw.ports }, ?_,
    by simp [hd1], by simp [hd2], by simp [hd3], by simp [hd4], by simp [hd5],
    by simp [hd6], by simp [hd7], rfl⟩
  simp only [readDevice, SwitchTPL.to_dict, jGet, List.lookup, jAsStr, optToJ,
    hd1, hd2, hd3, hd4, hd5, hd6, hd7]
  have hm := mapM_readPort_to_dict sw.ports
  rw [List.mapM] at hm
  simp [Option.bind, hm]

/-- C9 witness: the round trip applied to a concrete populated device. -/
theorem device_tree_roundtrip_witness :
    ∃ sw2, readDevice populatedSwitch.to_dict = some sw2 ∧
      sw2.description = populatedSwitch.description ∧
      sw2.mac_address = populatedSwitch.mac_address ∧
      sw2.ip_address = populatedSwitch.ip_address ∧
      sw2.subnet_mask = populatedSwitch.subnet_mask ∧
      sw2.gateway = populatedSwitch.gateway ∧
      sw2.firmware = populatedSwitch.firmware ∧
      sw2.hardware = populatedSwitch.hardware ∧
      sw2.ports = populatedSwitch.ports :=
  device_tree_roundtrip populatedSwitch (by decide) (by decide) (by decide)
    (by decide) (by decide) (by decide) (by decide)

/-! ### Lemmas for the system-info pipeline -/

theorem opt_bind_some {α β : Type} (a : α) (f : α → Option β) : (some a).bind f = f a := rfl

theorem opt_map_some {α β : Type} (a : α) (f : α → β) : (some a).map f = some (f a) := rfl

theorem skipWs_nil : skipWs [] = [] := rfl

theorem skipWs_nl (s : List Char) : skipWs ('\x0a' :: s) = skipWs s := rfl

theorem skipWs_quote (s : List Char) : skipWs ('"' :: s) = '"' :: s := rfl

theorem skipWs_colon (s : List Char) : skipWs (':' :: s) = ':' :: s := rfl

theorem skipWs_comma (s : List Char) : skipWs (',' :: s) = ',' :: s := rfl

theorem skipWs_rbrace (s : List Char) : skipWs ('\x7d' :: s) = '\x7d' :: s := rfl

theorem skipWs_lbrace (s : List Char) : skipWs ('\x7b' :: s) = '\x7b' :: s := rfl

theorem takeWhile_all_append (p : Char → Bool) : ∀ (a b : List Char),
    (∀ c ∈ a, p c = true) → (a ++ b).takeWhile p = a ++ b.takeWhile p := by
  intro a
  induction a with
  | nil => intro b _; rfl
  | cons c tl ih =>
    intro b h
    rw [List.cons_append, List.takeWhile_cons, h c (by simp), if_pos rfl]
    rw [ih b fun x hx => h x (by simp [hx]), List.cons_append]

theorem dropWhile_all_append (p : Char → Bool) : ∀ (a b : List Char),
    (∀ c ∈ a, p c = true) → (a ++ b).dropWhile p = b.dropWhile p := by
  intro a
  induction a with
  | nil => intro b _; rfl
  | cons c tl ih =>
    intro b h
    rw [List.cons_append, List.dropWhile_cons, h c (by simp), if_pos rfl]
    exact ih b fun x hx => h x (by simp [hx])

theorem parseJsonString_exact (content rest : List Char) (h : ∀ c ∈ content, ¬ c = '"') :
    parseJsonString ('"' :: (content ++ ('"' :: rest))) = some (content, rest) := by
  rw [parseJsonString]
  have hall : ∀ c ∈ content, (fun c => !(c == '"')) c = true := by
    intro c hc
    simpa using h c hc
  simp only [List.headD_cons, reduceIte, List.tail_cons]
  rw [dropWhile_all_append _ _ _ hall, takeWhile_all_append _ _ _ hall]
  rw [show List.dropWhile (fun c => !(c == '"')) ('"' :: rest) = '"' :: rest from rfl]
  rw [show List.takeWhile (fun c => !(c == '"')) ('"' :: rest) = [] from rfl]
  rw [if_neg (List.cons_ne_nil _ _), List.tail_cons, List.append_nil]

theorem goodVal_ne_quote (v : List Char) (h : goodVal v) : ∀ c ∈ v, ¬ c = '"' :=
  fun c hc => (h c hc).2.1

theorem goodVal_not_nl (v : List Char) (h : goodVal v) : '\x0a' ∉ v :=
  fun hm => absurd (h _ hm).1 (by decide)

theorem goodVal_not_brace (v : List Char) (h : goodVal v) : '\x7d' ∉ v :=
  fun hm => (h _ hm).2.2.2 rfl

theorem parseMembers_line (f : Nat) (k v rest : List Char)
    (hk : ∀ c ∈ k, ¬ c = '"') (hv : ∀ c ∈ v, ¬ c = '"') :
    parseMembersAux (f + 1) ('\x0a' :: (quotedLine k v [','] ++ ('\x0a' :: rest)))
      = (parseMembersAux f ('\x0a' :: rest)).map
          (fun p => ((String.mk k, String.mk v) :: p.1, p.2)) := by
  have e1 : parseJsonString
      ('"' :: (k ++ ('"' :: (':' :: '"' :: (v ++ ('"' :: ',' :: ('\x0a' :: rest)))))))
      = some (k, ':' :: '"' :: (v ++ ('"' :: ',' :: ('\x0a' :: rest)))) :=
    parseJsonString_exact k _ hk
  have e2 : parseJsonString ('"' :: (v ++ ('"' :: (',' :: '\x0a' :: rest))))
      = some (v, ',' :: '\x0a' :: rest) :=
    parseJsonString_exact v _ hv
  simp only [parseMembersAux, quotedLine, List.cons_append, List.append_assoc,
    List.singleton_append, List.nil_append, skipWs_nl, skipWs_quote, skipWs_colon,
    skipWs_comma, e1, e2, opt_bind_some, List.headD_cons, List.tail_cons, reduceIte]

theorem parseMembers_lastline (f : Nat) (k v rest : List Char)
    (hk : ∀ c ∈ k, ¬ c = '"') (hv : ∀ c ∈ v, ¬ c = '"') :
    parseMembersAux (f + 1) ('\x0a' :: (quotedLine k v [] ++ ('\x0a' :: '\x7d' :: rest)))
      = some ([(String.mk k, String.mk v)], rest) := by
  have e1 : parseJsonString
      ('"' :: (k ++ ('"' :: (':' :: '"' :: (v ++ ('"' :: '\x0a' :: '\x7d' :: rest))))))
      = some (k, ':' :: '"' :: (v ++ ('"' :: '\x0a' :: '\x7d' :: rest))) :=
    parseJsonString_exact k _ hk
  have e2 : parseJsonString ('"' :: (v ++ ('"' :: ('\x0a' :: '\x7d' :: rest))))
      = some (v, '\x0a' :: '\x7d' :: rest) :=
    parseJsonString_exact v _ hv
  simp only [parseMembersAux, quotedLine, List.cons_append, List.append_assoc,
    List.singleton_append, List.nil_append, skipWs_nl, skipWs_quote, skipWs_colon,
    skipWs_rbrace, e1, e2, opt_bind_some, List.headD_cons, List.tail_cons, reduceIte]
  rw [if_neg (show ¬ ('\x7d' : Char) = ',' by decide)]

theorem upToBraceSemi_spec : ∀ (a r : List Char), (∀ c ∈ a, ¬ c = '\x7d') → eolOk r = true →
    upToBraceSemi (a ++ ('\x7d' :: ';' :: r)) = some (a ++ ['\x7d']) := by
  intro a
  induction a with
  | nil =>
    intro r _ hr
    rw [List.nil_append, upToBraceSemi]
    simp [hr]
  | cons c tl ih =>
    intro r h hr
    rw [List.cons_append, upToBraceSemi]
    have hc : (c == '\x7d') = false := beq_eq_false_iff_ne.mpr (h c (by simp))
    rw [hc]
    simp only [Bool.false_and, Bool.false_eq_true, if_false]
    rw [ih r (fun x hx => h x (by simp [hx])) hr]
    simp

theorem matchInfoDs_of_matchLit (s r2 : List Char) (h : matchLit infoLit s = some r2) :
    matchInfoDs s =
      if r2.headD ' ' = '\x7b' then (upToBraceSemi r2.tail).map ('\x7b' :: ·) else none := by
  rw [matchInfoDs, h]

theorem keyLine_not_mem (c : Char) (k v t : List Char)
    (hck : c ∉ k) (hcv : c ∉ v) (hct : c ∉ t) (h1 : ¬ c = ':') (h2 : ¬ c = '"') :
    c ∉ keyLine k v t := by
  intro hm
  rw [keyLine] at hm
  rcases List.mem_append.mp hm with h | h
  · exact hck h
  · rcases List.mem_cons.mp h with h | h
    · exact h1 h
    · rcases List.mem_cons.mp h with h | h
      · exact h2 h
      · rcases List.mem_append.mp h with h | h
        · exact hcv h
        · rcases List.mem_cons.mp h with h | h
          · exact h2 h
          · exact hct h

theorem sysInner_not_mem (p : SysInfoPage) (c : Char)
    (hl1 : c ∉ keyLine "descriStr".toList p.descri [','])
    (hl2 : c ∉ keyLine "macStr".toList p.mac [','])
    (hl3 : c ∉ keyLine "ipStr".toList p.ip [','])
    (hl4 : c ∉ keyLine "netmaskStr".toList p.netmask [','])
    (hl5 : c ∉ keyLine "gatewayStr".toList p.gateway [','])
    (hl6 : c ∉ keyLine "firmwareStr".toList p.firmware [','])
    (hl7 : c ∉ keyLine "hardwareStr".toList p.hardware [])
    (hnl : ¬ c = '\x0a') : c ∉ sysInner p := by
  intro hm
  rw [sysInner] at hm
  rcases List.mem_append.mp hm with h | h
  · exact hl1 h
  rcases List.mem_cons.mp h with h | h
  · exact hnl h
  rcases List.mem_append.mp h with h | h
  · exact hl2 h
  rcases List.mem_cons.mp h with h | h
  · exact hnl h
  rcases List.mem_append.mp h with h | h
  · exact hl3 h
  rcases List.mem_cons.mp h with h | h
  · exact hnl h
  rcases List.mem_append.mp h with h | h
  · exact hl4 h
  rcases List.mem_cons.mp h with h | h
  · exact hnl h
  rcases List.mem_append.mp h with h | h
  · exact hl5 h
  rcases List.mem_cons.mp h with h | h
  · exact hnl h
  rcases List.mem_append.mp h with h | h
  · exact hl6 h
  rcases List.mem_cons.mp h with h | h
  · exact hnl h
  exact hl7 h

theorem sysInner_no_brace (p : SysInfoPage)
    (g1 : goodVal p.descri) (g2 : goodVal p.mac) (g3 : goodVal p.ip)
    (g4 : goodVal p.netmask) (g5 : goodVal p.gateway) (g6 : goodVal p.firmware)
    (g7 : goodVal p.hardware) : '\x7d' ∉ sysInner p := by
  refine sysInner_not_mem p '\x7d' ?_ ?_ ?_ ?_ ?_ ?_ ?_ (by decide)
  · exact keyLine_not_mem _ _ _ _ (by decide) (goodVal_not_brace _ g1)
      (by decide) (by decide) (by decide)
  · exact keyLine_not_mem _ _ _ _ (by decide) (goodVal_not_brace _ g2)
      (by decide) (by decide) (by decide)
  · exact keyLine_not_mem _ _ _ _ (by decide) (goodVal_not_brace _ g3)
      (by decide) (by decide) (by decide)
  · exact keyLine_not_mem _ _ _ _ (by decide) (goodVal_not_brace _ g4)
      (by decide) (by decide) (by decide)
  · exact keyLine_not_mem _ _ _ _ (by decide) (goodVal_not_brace _ g5)
      (by decide) (by decide) (by decide)
  · exact keyLine_not_mem _ _ _ _ (by decide) (goodVal_not_brace _ g6)
      (by decide) (by decide) (by decide)
  · exact keyLine_not_mem _ _ _ _ (by decide) (goodVal_not_brace _ g7)
      (by decide) (by decide) (by decide)

theorem matchInfoDs_at (p : SysInfoPage)
    (g1 : goodVal p.descri) (g2 : goodVal p.mac) (g3 : goodVal p.ip)
    (g4 : goodVal p.netmask) (g5 : goodVal p.gateway) (g6 : goodVal p.firmware)
    (g7 : goodVal p.hardware) :
    matchInfoDs (renderSysInfoPage p) =
      some ('\x7b' :: ('\x0a' :: (sysInner p ++ ('\x0a' :: '\x7d' :: [])))) := by
  have hml : matchLit infoLit (renderSysInfoPage p) =
      some ('\x7b' :: '\x0a' :: (sysInner p ++ ('\x0a' :: '\x7d' :: ';' :: '\x0a' :: []))) := by
    rw [renderSysInfoPage]
    exact matchLit_self _ _
  rw [matchInfoDs_of_matchLit _ _ hml]
  simp only [List.headD_cons, List.tail_cons, reduceIte]
  have hsplit : '\x0a' :: (sysInner p ++ ('\x0a' :: '\x7d' :: ';' :: '\x0a' :: []))
      = ('\x0a' :: (sysInner p ++ ['\x0a'])) ++ ('\x7d' :: ';' :: ('\x0a' :: [])) := by
    simp
  rw [hsplit]
  rw [upToBraceSemi_spec _ _ ?_ (by decide)]
  · simp
  · intro c hc
    rcases List.mem_cons.mp hc with h | h
    · subst h; decide
    · rcases List.mem_append.mp h with h | h
      · intro he
        subst he
        exact sysInner_no_brace p g1 g2 g3 g4 g5 g6 g7 h
      · rcases List.mem_singleton.mp h with h
        subst h; decide

theorem quoteLine_keyLine (k v t : List Char) (hk : k ≠ [])
    (hkw : ∀ c ∈ k, isWordChar c = true) :
    quoteLine (keyLine k v t) = quotedLine k v t := by
  simp only [quoteLine, keyLine]
  rw [takeWhile_all_append _ _ _ hkw, dropWhile_all_append _ _ _ hkw]
  rw [show List.takeWhile isWordChar (':' :: '"' :: (v ++ ('"' :: t))) = [] from rfl]
  rw [show List.dropWhile isWordChar (':' :: '"' :: (v ++ ('"' :: t)))
      = ':' :: '"' :: (v ++ ('"' :: t)) from rfl]
  rw [List.append_nil]
  have hke : k.isEmpty = false := by
    cases k with
    | nil => exact absurd rfl hk
    | cons a b => rfl
  rw [hke]
  simp only [Bool.false_eq_true, if_false, reduceIte, quotedLine]

theorem skipWs_quotedLine (k v t r : List Char) :
    skipWs (quotedLine k v t ++ r) = quotedLine k v t ++ r := by
  rw [quotedLine, List.cons_append, skipWs_quote]

theorem headD_quotedLine (k v t r : List Char) (d : Char) :
    (quotedLine k v t ++ r).headD d = '"' := by
  rw [quotedLine, List.cons_append, List.headD_cons]

theorem quoteKeys_group (p : SysInfoPage)
    (g1 : goodVal p.descri) (g2 : goodVal p.mac) (g3 : goodVal p.ip)
    (g4 : goodVal p.netmask) (g5 : goodVal p.gateway) (g6 : goodVal p.firmware)
    (g7 : goodVal p.hardware) :
    quoteKeys ('\x7b' :: ('\x0a' :: (sysInner p ++ ('\x0a' :: '\x7d' :: [])))) =
      '\x7b' :: ('\x0a' :: quotedBody p) := by
  have n1 : '\x0a' ∉ keyLine "descriStr".toList p.descri [','] :=
    keyLine_not_mem _ _ _ _ (by decide) (goodVal_not_nl _ g1) (by decide) (by decide) (by decide)
  have n2 : '\x0a' ∉ keyLine "macStr".toList p.mac [','] :=
    keyLine_not_mem _ _ _ _ (by decide) (goodVal_not_nl _ g2) (by decide) (by decide) (by decide)
  have n3 : '\x0a' ∉ keyLine "ipStr".toList p.ip [','] :=
    keyLine_not_mem _ _ _ _ (by decide) (goodVal_not_nl _ g3) (by decide) (by decide) (by decide)
  have n4 : '\x0a' ∉ keyLine "netmaskStr".toList p.netmask [','] :=
    keyLine_not_mem _ _ _ _ (by decide) (goodVal_not_nl _ g4) (by decide) (by decide) (by decide)
  have n5 : '\x0a' ∉ keyLine "gatewayStr".toList p.gateway [','] :=
    keyLine_not_mem _ _ _ _ (by decide) (goodVal_not_nl _ g5) (by decide) (by decide) (by decide)
  have n6 : '\x0a' ∉ keyLine "firmwareStr".toList p.firmware [','] :=
    keyLine_not_mem _ _ _ _ (by decide) (goodVal_not_nl _ g6) (by decide) (by decide) (by decide)
  have n7 : '\x0a' ∉ keyLine "hardwareStr".toList p.hardware [] :=
    keyLine_not_mem _ _ _ _ (by decide) (goodVal_not_nl _ g7) (by decide) (by decide) (by decide)
  rw [quoteKeys]
  rw [show ('\x7b' :: ('\x0a' :: (sysInner p ++ ('\x0a' :: '\x7d' :: []))))
      = ['\x7b'] ++ ('\x0a' :: (sysInner p ++ ('\x0a' :: '\x7d' :: []))) from rfl]
  rw [splitOn_append '\x0a' _ _ (by decide)]
  rw [sysInner]
  simp only [List.append_assoc, List.cons_append]
  rw [splitOn_append '\x0a' _ _ n1, splitOn_append '\x0a' _ _ n2,
    splitOn_append '\x0a' _ _ n3, splitOn_append '\x0a' _ _ n4,
    splitOn_append '\x0a' _ _ n5, splitOn_append '\x0a' _ _ n6,
    splitOn_append '\x0a' _ _ n7]
  rw [show splitOn '\x0a' ('\x7d' :: []) = [['\x7d']] from rfl]
  simp only [List.map_cons, List.map_nil]
  rw [show quoteLine ['\x7b'] = ['\x7b'] from rfl]
  rw [quoteLine_keyLine "descriStr".toList p.descri [','] (by decide) (by decide)]
  rw [quoteLine_keyLine "macStr".toList p.mac [','] (by decide) (by decide)]
  rw [quoteLine_keyLine "ipStr".toList p.ip [','] (by decide) (by decide)]
  rw [quoteLine_keyLine "netmaskStr".toList p.netmask [','] (by decide) (by decide)]
  rw [quoteLine_keyLine "gatewayStr".toList p.gateway [','] (by decide) (by decide)]
  rw [quoteLine_keyLine "firmwareStr".toList p.firmware [','] (by decide) (by decide)]
  rw [quoteLine_keyLine "hardwareStr".toList p.hardware [] (by decide) (by decide)]
  rw [show quoteLine ['\x7d'] = ['\x7d'] from rfl]
  simp only [joinOn, quotedBody, List.cons_append, List.nil_append, List.append_assoc]

theorem jsonParseObj_quoted (p : SysInfoPage)
    (g1 : goodVal p.descri) (g2 : goodVal p.mac) (g3 : goodVal p.ip)
    (g4 : goodVal p.netmask) (g5 : goodVal p.gateway) (g6 : goodVal p.firmware)
    (g7 : goodVal p.hardware) :
    jsonParseObj ('\x7b' :: ('\x0a' :: quotedBody p))
      = some [("descriStr", String.mk p.descri), ("macStr", String.mk p.mac),
              ("ipStr", String.mk p.ip), ("netmaskStr", String.mk p.netmask),
              ("gatewayStr", String.mk p.gateway), ("firmwareStr", String.mk p.firmware),
              ("hardwareStr", String.mk p.hardware)] := by
  have hlen : 6 ≤ ('\x0a' :: quotedBody p).length := by
    simp only [quotedBody, quotedLine, List.length_append, List.length_cons]
    omega
  have e1 : skipWs (quotedBody p) = quotedBody p := by
    rw [quotedBody]; exact skipWs_quotedLine _ _ _ _
  have e2 : (quotedBody p).headD ' ' = '"' := by
    rw [quotedBody]; exact headD_quotedLine _ _ _ _ _
  simp only [jsonParseObj, skipWs_lbrace, List.headD_cons, List.tail_cons, reduceIte,
    skipWs_nl, e1, e2]
  rw [if_neg (show ¬ ('"' : Char) = '\x7d' by decide)]
  generalize hL : ('\x0a' :: quotedBody p).length = L at hlen ⊢
  rw [show L + 1 = (L - 6 + 6) + 1 by omega]
  generalize hg : L - 6 = g
  rw [quotedBody]
  rw [parseMembers_line (g + 6) _ _ _ (by decide) (goodVal_ne_quote _ g1)]
  rw [show g + 6 = (g + 5) + 1 by omega]
  rw [parseMembers_line (g + 5) _ _ _ (by decide) (goodVal_ne_quote _ g2)]
  rw [show g + 5 = (g + 4) + 1 by omega]
  rw [parseMembers_line (g + 4) _ _ _ (by decide) (goodVal_ne_quote _ g3)]
  rw [show g + 4 = (g + 3) + 1 by omega]
  rw [parseMembers_line (g + 3) _ _ _ (by decide) (goodVal_ne_quote _ g4)]
  rw [show g + 3 = (g + 2) + 1 by omega]
  rw [parseMembers_line (g + 2) _ _ _ (by decide) (goodVal_ne_quote _ g5)]
  rw [show g + 2 = (g + 1) + 1 by omega]
  rw [parseMembers_line (g + 1) _ _ _ (by decide) (goodVal_ne_quote _ g6)]
  rw [parseMembers_lastline g _ _ _ (by decide) (goodVal_ne_quote _ g7)]
  simp only [opt_map_some, opt_bind_some, skipWs_nil, List.isEmpty_nil, if_true, reduceIte]
  rfl

theorem parse_system_info_of_search (text body : List Char)
    (h : searchWith matchInfoDs text = some body) :
    parse_system_info text =
      match jsonParseObj (quoteKeys body) with
      | some kvs => .ok kvs
      | none => .error .malformedLiteral := by
  rw [parse_system_info, h]

/-! ### Claim theorem: the system-info page -/

/-- C8: on every well-formed system-info page in the modeled layout (a
`var info_ds = {...};` assignment with the seven bare-identifier keys,
one per line, and printable, quote-free, backslash-free, brace-free
string values), `parse_system_info` returns exactly the seven required
keys whose values are character-for-character the literal values of the
page: the key-quoting normalization never touches value content. -/
theorem extract_system_info_exact (p : SysInfoPage)
    (g1 : goodVal p.descri) (g2 : goodVal p.mac) (g3 : goodVal p.ip)
    (g4 : goodVal p.netmask) (g5 : goodVal p.gateway) (g6 : goodVal p.firmware)
    (g7 : goodVal p.hardware) :
    parse_system_info (renderSysInfoPage p) =
      .ok [("descriStr", String.mk p.descri), ("macStr", String.mk p.mac),
           ("ipStr", String.mk p.ip), ("netmaskStr", String.mk p.netmask),
           ("gatewayStr", String.mk p.gateway), ("firmwareStr", String.mk p.firmware),
           ("hardwareStr", String.mk p.hardware)] := by
  have hsearch : searchWith matchInfoDs (renderSysInfoPage p)
      = some ('\x7b' :: ('\x0a' :: (sysInner p ++ ('\x0a' :: '\x7d' :: [])))) :=
    searchWith_hit _ _ _ (matchInfoDs_at p g1 g2 g3 g4 g5 g6 g7)
  rw [parse_system_info_of_search _ _ hsearch]
  rw [quoteKeys_group p g1 g2 g3 g4 g5 g6 g7]
  rw [jsonParseObj_quoted p g1 g2 g3 g4 g5 g6 g7]

/-- C8 witness: the theorem applied at the spec's fixture page. -/
theorem extract_system_info_exact_witness :
    parse_system_info (renderSysInfoPage fixtureSysPage) =
      .ok [("descriStr", "SW1"), ("macStr", "00:11:22:33:44:55"),
           ("ipStr", "10.0.0.2"), ("netmaskStr", "255.255.255.0"),
           ("gatewayStr", "10.0.0.1"), ("firmwareStr", "1.0.0"),
           ("hardwareStr", "1.0")] :=
  extract_system_info_exact fixtureSysPage (by decide) (by decide) (by decide)
    (by decide) (by decide) (by decide) (by decide)

end TplSwitch
